import Mathlib

/-!
Verification of the tile-grid forest-explorer game (src/game.ts, the
near-duplicate variants src/unnamed/part_002 and src/unnamed/part_004, and the
per-entity module src/tree.ts).

The embedding is shallow: JavaScript numbers are modelled as rationals (ℚ) for
continuous quantities (positions, timers, angles, opacity) and integers (ℤ) for
tree health and tile coordinates; optional fields of the `Decoration` interface
become `Option`s, and the `?? default` operator is `Option.getD`.
Rendering-only state (meshes, materials, particles, shake rotations, the
camera) is omitted: the game logic never branches on it.  Two quantities of the
source have no exact rational value and are abstracted:

* `Math.PI / 2`, the clamp of the fall angle, is threaded through as a
  parameter `halfPi : ℚ`; every property proved below holds for every value of
  that parameter, in particular for the double the source uses.
* the Euclidean norm (`Math.sqrt`).  The arrival test `dist < 0.01` of
  `updatePlayer` is represented exactly by squaring (`dx² + dy² < 1/10000`,
  legitimate because both sides are nonnegative and squaring is monotone), and
  the mid-translation position increment `player.x += dx / dist * step` is
  abstracted as a parameter `interp : Player → ℚ → Player`: by its type it can
  only rewrite the player's continuous fields, and every theorem below holds
  for every choice of it.  Likewise the fall direction `(dx/dist, dy/dist)`
  computed at `damageTree`'s felling point is passed to `damageTree` as an
  explicit vector argument (the signature of `Tree.damage` in src/tree.ts,
  lines 127-139); the vector the embedded game loop passes is the
  un-normalised `(dx, dy)`, a positive scalar multiple of the source's unit
  vector, and no verified property reads its magnitude.

Randomness: `Math.random()` draws are threaded as explicit inputs (`TileRng`
per tile, a `randomIndex` for spawn selection), so every theorem about
generation quantifies over all possible draws.
-/

namespace ForestExplorer

/-- Terrain kind of a tile: the `type` field of the `Tile` interface (src/game.ts line 11). -/
inductive Terrain
  | grass
  | water
  | path
deriving DecidableEq, Repr

/-- Decoration kind: the `type` field of the `Decoration` interface (src/game.ts line 18). -/
inductive DecoType
  | tree
  | rock
  | flower
deriving DecidableEq, Repr

/-- Tree animation state: the `state` field of `Decoration` (src/game.ts line 24). -/
inductive TreeState
  | healthy
  | falling
  | fading
deriving DecidableEq, Repr

/-- A two-component rational vector, standing for the (x, z) components of the `THREE.Vector3` fall direction; the y component is always 0 in the source. -/
structure Vec2 where
  x : ℚ
  y : ℚ
deriving DecidableEq, Repr

/-- The `Decoration` interface of src/unnamed/part_004 lines 20-32 (src/game.ts lines 17-28 is the same minus `shakeEndTime`).  Optional fields stay `Option`; the `mesh` handle is rendering-only and omitted. -/
structure Decoration where
  type : DecoType
  variant : ℕ
  offsetX : ℚ
  offsetY : ℚ
  health : Option ℤ
  state : Option TreeState
  fallAngle : Option ℚ
  fallDirection : Option Vec2
  opacity : Option ℚ
  shakeEndTime : Option ℚ
deriving DecidableEq, Repr

/-- The `Tile` interface (src/game.ts lines 8-15), minus the meshes. -/
structure Tile where
  x : ℤ
  y : ℤ
  type : Terrain
  decoration : Option Decoration
deriving DecidableEq, Repr

/-- The global `world : Tile[][]` array.  The source array is rectangular (`generateWorld` builds it `WORLD_SIZE × WORLD_SIZE`); it is embedded as a total tile function together with the two bounds the source reads (`world.length` and `world[0].length`). -/
structure World where
  width : ℕ
  height : ℕ
  tileFn : ℤ → ℤ → Tile

/-- src/game.ts `isWalkable` (lines 883-895; identical in src/unnamed/part_004 lines 819-831).  The raw coordinates are floored first, exactly as the source does; `health ?? 100` is `Option.getD`. -/
def isWalkable (w : World) (x y : ℚ) : Bool :=
  let tileX : ℤ := ⌊x⌋
  let tileY : ℤ := ⌊y⌋
  if tileX < 0 ∨ (w.width : ℤ) ≤ tileX ∨ tileY < 0 ∨ (w.height : ℤ) ≤ tileY then
    false
  else
    let tile := w.tileFn tileX tileY
    if tile.type = Terrain.water then false
    else
      match tile.decoration with
      | none => true
      | some d =>
        if d.type = DecoType.rock then false
        else if d.type = DecoType.tree then decide (d.health.getD 100 ≤ 0)
        else true

/-- Overwriting one tile's `decoration` field, the effect of the source's `tile.decoration.health = ...` / `world[x][y].decoration = null` mutations on the functional world. -/
def World.setDecoration (w : World) (i j : ℤ) (d : Option Decoration) : World :=
  { w with tileFn := fun a b =>
      if a = i ∧ b = j then { w.tileFn a b with decoration := d } else w.tileFn a b }

/-- src/unnamed/part_004 `damageTree` (lines 833-858): bounds check, the `decoration && type === 'tree' && (health ?? 100) > 0` guard, `health -= 34`, `shakeEndTime = Date.now() + 150`, and on `health <= 0` the transition to `falling` with `fallAngle = 0`, the provided fall direction, and `opacity = 1`.  src/game.ts lines 897-922 is identical minus the `shakeEndTime` write, which is also in `Tree.damage` (src/tree.ts lines 127-139; that signature also provides the direction as a parameter, used here because the source's normalisation divides by a Euclidean norm).  The source also pushes the decoration on `fallingTrees`; that list always holds exactly the tree decorations in state `falling`/`fading`, which is how `updateFallingTrees` is embedded below. -/
def damageTree (w : World) (dir : Vec2) (now : ℚ) (x y : ℚ) : World × Bool :=
  let tileX : ℤ := ⌊x⌋
  let tileY : ℤ := ⌊y⌋
  if tileX < 0 ∨ (w.width : ℤ) ≤ tileX ∨ tileY < 0 ∨ (w.height : ℤ) ≤ tileY then
    (w, false)
  else
    let tile := w.tileFn tileX tileY
    match tile.decoration with
    | some d =>
      if d.type = DecoType.tree ∧ 0 < d.health.getD 100 then
        let newHealth : ℤ := d.health.getD 100 - 34
        let d1 : Decoration :=
          { d with health := some newHealth, shakeEndTime := some (now + 150) }
        if newHealth ≤ 0 then
          let d2 : Decoration :=
            { d1 with
              state := some TreeState.falling
              fallAngle := some 0
              fallDirection := some dir
              opacity := some 1 }
          (w.setDecoration tileX tileY (some d2), true)
        else
          (w.setDecoration tileX tileY (some d1), false)
      else (w, false)
    | none => (w, false)

/-- One per-frame step for a single decoration: the per-tree body of `updateFallingTrees` (src/game.ts lines 1014-1082) = `Tree.update` (src/tree.ts lines 141-197) with `dt` in seconds.  A `falling` tree advances `fallAngle` by `dt * 2.5` and clamps at `halfPi` (standing for `Math.PI / 2`) into `fading`; a `fading` tree loses `dt * 2` opacity and is removed — scene detach plus the owning tile's decoration cleared to null, the `none` result — once opacity ≤ 0.  Trees in state `healthy` (never on the source's `fallingTrees` list) and non-tree decorations are untouched; the healthy-tree shake writes only mesh rotations and is omitted. -/
def treeFrame (halfPi dt : ℚ) (d : Decoration) : Option Decoration :=
  if d.type = DecoType.tree ∧ d.state = some TreeState.falling then
    let a : ℚ := d.fallAngle.getD 0 + dt * (5 / 2)
    if halfPi ≤ a then
      some { d with fallAngle := some halfPi, state := some TreeState.fading }
    else
      some { d with fallAngle := some a }
  else if d.type = DecoType.tree ∧ d.state = some TreeState.fading then
    let o : ℚ := d.opacity.getD 1 - dt * 2
    if o ≤ 0 then none
    else some { d with opacity := some o }
  else some d

/-- src/game.ts `updateFallingTrees` at world level: every tile's decoration takes one `treeFrame` step (the source iterates the `fallingTrees` list, which holds exactly the decorations `treeFrame` does not fix). -/
def updateFallingTrees (halfPi deltaTime : ℚ) (w : World) : World :=
  let dt := deltaTime / 1000
  { w with tileFn := fun i j =>
      let t := w.tileFn i j
      { t with decoration := t.decoration.bind (treeFrame halfPi dt) } }

/-- The `Player` interface (src/game.ts lines 30-39).  `direction` (a `Math.atan2` angle) is omitted: in src/game.ts it only drives the mesh rotation and is never branched on. -/
structure Player where
  x : ℚ
  y : ℚ
  targetX : ℚ
  targetY : ℚ
  isMoving : Bool
  animTime : ℚ
deriving DecidableEq, Repr

/-- The `InputState` interface (src/game.ts lines 41-46): the held-key snapshot. -/
structure InputState where
  up : Bool
  down : Bool
  left : Bool
  right : Bool
deriving DecidableEq, Repr

/-- The module-level mutable state of src/game.ts that the game logic reads: `world`, `player`, the global `isMoving`, and the global `chopCooldown` (lines 124-129). -/
structure GameState where
  world : World
  player : Player
  isMoving : Bool
  chopCooldown : ℚ

/-- The `dx` accumulation of src/game.ts lines 946-950: `if (input.left) dx -= 1; if (input.right) dx += 1`. -/
def intentDx (input : InputState) : ℤ :=
  (if input.left then -1 else 0) + (if input.right then 1 else 0)

/-- The `dy` accumulation of src/game.ts lines 946-949: `if (input.up) dy -= 1; if (input.down) dy += 1`. -/
def intentDy (input : InputState) : ℤ :=
  (if input.up then -1 else 0) + (if input.down then 1 else 0)

/-- src/game.ts `updatePlayer` (lines 924-1012), logic only (mesh position, limb swing and highlight writes omitted).  Lean's `round` on ℚ is `⌊x + 1/2⌋`, exactly JavaScript's `Math.round`.  The second component reports whether the chop branch (lines 969-973) fired this frame. -/
def updatePlayer (interp : Player → ℚ → Player) (deltaTime now : ℚ)
    (input : InputState) (gs : GameState) : GameState × Bool :=
  if gs.isMoving then
    let dx := gs.player.targetX - gs.player.x
    let dy := gs.player.targetY - gs.player.y
    if dx ^ 2 + dy ^ 2 < 1 / 10000 then
      ({ gs with
          player := { gs.player with
            x := gs.player.targetX, y := gs.player.targetY, isMoving := false }
          isMoving := false }, false)
    else
      ({ gs with player := interp gs.player deltaTime }, false)
  else
    let dx := intentDx input
    let dy := intentDy input
    if dx = 0 ∧ dy = 0 then (gs, false)
    else
      let targetX : ℚ := ((round gs.player.x + dx : ℤ) : ℚ)
      let targetY : ℚ := ((round gs.player.y + dy : ℤ) : ℚ)
      if isWalkable gs.world targetX targetY then
        ({ gs with
            player := { gs.player with targetX := targetX, targetY := targetY }
            isMoving := true }, false)
      else
        if gs.chopCooldown ≤ 0 then
          let tileX : ℤ := ⌊targetX⌋
          let tileY : ℤ := ⌊targetY⌋
          if 0 ≤ tileX ∧ tileX < (gs.world.width : ℤ) ∧ 0 ≤ tileY ∧ tileY < (gs.world.height : ℤ) then
            let tile := gs.world.tileFn tileX tileY
            match tile.decoration with
            | some d =>
              if d.type = DecoType.tree then
                let dir : Vec2 :=
                  ⟨(tile.x : ℚ) + 1 / 2 - gs.player.x, (tile.y : ℚ) + 1 / 2 - gs.player.y⟩
                ({ gs with
                    world := (damageTree gs.world dir now targetX targetY).1
                    chopCooldown := 300 }, true)
              else (gs, false)
            | none => (gs, false)
          else (gs, false)
        else (gs, false)

/-- src/game.ts `update` (lines 1199-1206): decrement the cooldown while positive, then `updatePlayer`, then `updateFallingTrees` (`updateParticles` touches only particles and is omitted). -/
def update (halfPi : ℚ) (interp : Player → ℚ → Player) (deltaTime now : ℚ)
    (input : InputState) (gs : GameState) : GameState × Bool :=
  let gs0 := { gs with
    chopCooldown :=
      if 0 < gs.chopCooldown then gs.chopCooldown - deltaTime else gs.chopCooldown }
  let r := updatePlayer interp deltaTime now input gs0
  ({ r.1 with world := updateFallingTrees halfPi deltaTime r.1.world }, r.2)

/-- One animation frame as the game loop delivers it: the `Date.now()` timestamp, the clamped `deltaTime`, and the input snapshot. -/
structure Frame where
  now : ℚ
  delta : ℚ
  input : InputState

/-- One full `update` call for one frame. -/
def stepFrame (halfPi : ℚ) (interp : Player → ℚ → Player) (f : Frame)
    (gs : GameState) : GameState × Bool :=
  update halfPi interp f.delta f.now f.input gs

/-- Running `update` over a whole list of frames: an execution trace of the game loop. -/
def runFrames (halfPi : ℚ) (interp : Player → ℚ → Player)
    (frames : List Frame) (gs : GameState) : GameState :=
  frames.foldl (fun g f => (stepFrame halfPi interp f g).1) gs

/-- Total delta time of a list of frames, in milliseconds. -/
def sumDelta (frames : List Frame) : ℚ :=
  (frames.map Frame.delta).sum

/-- src/game.ts line 76: `const WORLD_SIZE = 20`. -/
def WORLD_SIZE : ℕ := 20

/-- The `Math.random()` draws one `createTile` call consumes, threaded explicitly: the path roll, the decoration roll, the two offset rolls, and the variant draw (`Math.floor(Math.random() * k)`, embedded as an arbitrary natural taken mod k). -/
structure TileRng where
  pathRoll : ℚ
  decoRoll : ℚ
  offXRoll : ℚ
  offYRoll : ℚ
  variantRoll : ℕ

/-- src/game.ts `createTile` (lines 734-806), mesh creation omitted.  `WORLD_SIZE / 2 = 10` and `WORLD_SIZE - 1 - x = 19 - x`.  The water test `sqrt((x-10)² + (y-10)²) < 3` is represented exactly by its square `(x-10)² + (y-10)² < 9` (both sides nonnegative).  Probabilities 0.05, 0.30, 0.35, 0.45 and the offset arithmetic `(r - 0.5) * 0.6` appear verbatim as rationals. -/
def createTile (x y : ℤ) (rng : TileRng) : Tile :=
  let distFromCenter2 : ℚ := ((x : ℚ) - 10) ^ 2 + ((y : ℚ) - 10) ^ 2
  let distFromEdge : ℤ := min (min x y) (min (19 - x) (19 - y))
  let t : Terrain :=
    if distFromCenter2 < 9 then Terrain.water
    else if rng.pathRoll < 1 / 20 ∧ 1 < distFromEdge then Terrain.path
    else Terrain.grass
  let offsetX : ℚ := (rng.offXRoll - 1 / 2) * (3 / 5)
  let offsetY : ℚ := (rng.offYRoll - 1 / 2) * (3 / 5)
  let decoration : Option Decoration :=
    if t = Terrain.grass ∧ 0 < distFromEdge then
      if rng.decoRoll < 3 / 10 then
        some ⟨DecoType.tree, rng.variantRoll % 3, offsetX, offsetY,
          some 100, some TreeState.healthy, none, none, none, none⟩
      else if rng.decoRoll < 7 / 20 then
        some ⟨DecoType.rock, rng.variantRoll % 2, offsetX, offsetY,
          none, none, none, none, none, none⟩
      else if rng.decoRoll < 9 / 20 then
        some ⟨DecoType.flower, rng.variantRoll % 4, offsetX, offsetY,
          none, none, none, none, none, none⟩
      else none
    else none
  ⟨x, y, t, decoration⟩

/-- src/game.ts `generateWorld` (lines 808-818): a `WORLD_SIZE × WORLD_SIZE` grid of `createTile`, with one independent draw bundle per coordinate. -/
def generateWorld (rng : ℤ → ℤ → TileRng) : World :=
  ⟨WORLD_SIZE, WORLD_SIZE, fun i j => createTile i j (rng i j)⟩

/-- The filter of `getSpawnPosition` (src/game.ts line 826): not water, and the decoration (if any) is neither a tree nor a rock. -/
def spawnCandidate (t : Tile) : Bool :=
  decide (t.type ≠ Terrain.water) &&
    (match t.decoration with
     | none => true
     | some d => decide (d.type ≠ DecoType.tree) && decide (d.type ≠ DecoType.rock))

/-- The `validPositions` array `getSpawnPosition` collects (src/game.ts lines 821-830), in the source's loop order: x outer from 0, y inner from 0. -/
def validPositions (w : World) : List (ℤ × ℤ) :=
  (List.range w.width).flatMap fun (x : ℕ) =>
    (List.range w.height).filterMap fun (y : ℕ) =>
      if spawnCandidate (w.tileFn ((x : ℕ) : ℤ) ((y : ℕ) : ℤ)) then
        some (((x : ℕ) : ℤ), ((y : ℕ) : ℤ))
      else none

/-- src/game.ts `getSpawnPosition` (lines 820-838) with the random index `Math.floor(Math.random() * length)` threaded as a parameter; the fallback is the grid centre `(10, 10)`. -/
def getSpawnPosition (w : World) (randomIndex : ℕ) : ℤ × ℤ :=
  let valid := validPositions w
  if 0 < valid.length then valid.getD randomIndex (0, 0)
  else (10, 10)

/-- src/game.ts `createPlayer` (lines 840-855), logic fields only. -/
def createPlayer (x y : ℤ) : Player :=
  ⟨(x : ℚ), (y : ℚ), (x : ℚ), (y : ℚ), false, 0⟩

/-- Every tree decoration of the world carries one of the four health values a fresh tree can ever reach: 100, 66, 32, or -2. -/
def treeHealthInv (w : World) : Prop :=
  ∀ i j d, (w.tileFn i j).decoration = some d → d.type = DecoType.tree →
    d.health = some 100 ∨ d.health = some 66 ∨ d.health = some 32 ∨ d.health = some (-2)

/-- A trivial instantiation of the abstracted mid-translation interpolation, used by concrete scenarios (whose players never translate). -/
def interpId : Player → ℚ → Player := fun p _ => p

def inpNone : InputState := ⟨false, false, false, false⟩

def inpRight : InputState := ⟨false, false, false, true⟩

def inpUpLeft : InputState := ⟨true, false, true, false⟩

/-- A fresh tree decoration exactly as `createTile` builds one (offsets specialised to 0). -/
def sampleTreeDeco : Decoration :=
  ⟨DecoType.tree, 0, 0, 0, some 100, some TreeState.healthy, none, none, none, none⟩

/-- A minimal two-tile world: grass at (0,0), a fresh tree on grass at (1,0). -/
def sampleW : World :=
  ⟨2, 1, fun i j =>
    if i = 1 ∧ j = 0 then ⟨1, 0, Terrain.grass, some sampleTreeDeco⟩
    else ⟨i, j, Terrain.grass, none⟩⟩

/-- Player idle at (0,0) next to the fresh tree of `sampleW`, cooldown expired. -/
def sampleGs : GameState := ⟨sampleW, ⟨0, 0, 0, 0, false, 0⟩, false, 0⟩

/-- A depleted tree (health -2, falling), as it is right after its third chop. -/
def fallenDeco : Decoration :=
  ⟨DecoType.tree, 0, 0, 0, some (-2), some TreeState.falling, some 0,
    some ⟨1, 0⟩, some 1, some 150⟩

/-- The two-tile world holding the depleted tree. -/
def fallenW : World :=
  ⟨2, 1, fun i j =>
    if i = 1 ∧ j = 0 then ⟨1, 0, Terrain.grass, some fallenDeco⟩
    else ⟨i, j, Terrain.grass, none⟩⟩

/-- One 300 ms frame with the right key held. -/
def chopF : Frame := ⟨0, 300, inpRight⟩

/-- A sample fall direction vector. -/
def chopDir : Vec2 := ⟨1, 0⟩

/-- The sample world after one chop. -/
def chop1W : World := (damageTree sampleW chopDir 0 1 0).1

/-- The sample world after two chops. -/
def chop2W : World := (damageTree chop1W chopDir 0 1 0).1

/-- The sample world after three chops. -/
def chop3W : World := (damageTree chop2W chopDir 0 1 0).1

def deco66 : Decoration := { sampleTreeDeco with health := some 66, shakeEndTime := some 150 }

def deco32 : Decoration := { sampleTreeDeco with health := some 32, shakeEndTime := some 150 }

def decoFallen : Decoration :=
  { sampleTreeDeco with health := some (-2), shakeEndTime := some 150, state := some TreeState.falling, fallAngle := some 0, fallDirection := some chopDir, opacity := some 1 }

def rngGrass : TileRng := ⟨1, 1, 1 / 2, 1 / 2, 0⟩

def rngTree : TileRng := ⟨1, 0, 1 / 2, 1 / 2, 0⟩

/-- Random draws generating a world whose only decoration is a tree at (1,1). -/
def rngC7 : ℤ → ℤ → TileRng := fun i j => if i = 1 ∧ j = 1 then rngTree else rngGrass

def c7TreeDeco : Decoration :=
  ⟨DecoType.tree, 0, 0, 0, some 100, some TreeState.healthy, none, none, none, none⟩

/-- A freshly generated world (under `rngC7`) with the player idle at (0,1), facing the tree tile (1,1). -/
def gsC7 : GameState := ⟨generateWorld rngC7, createPlayer 0 1, false, 0⟩

/-- A 20×20 all-grass world with no decorations. -/
def allGrassW : World := ⟨20, 20, fun i j => ⟨i, j, Terrain.grass, none⟩⟩

/-- Player idle at (5,5) on the all-grass world. -/
def gsDiag : GameState := ⟨allGrassW, createPlayer 5 5, false, 0⟩

theorem isWalkable_eq_true_iff (w : World) (x y : ℚ) :
    isWalkable w x y = true ↔
      (0 ≤ ⌊x⌋ ∧ ⌊x⌋ < (w.width : ℤ) ∧ 0 ≤ ⌊y⌋ ∧ ⌊y⌋ < (w.height : ℤ)) ∧
      (w.tileFn ⌊x⌋ ⌊y⌋).type ≠ Terrain.water ∧
      (∀ d, (w.tileFn ⌊x⌋ ⌊y⌋).decoration = some d →
        d.type ≠ DecoType.rock ∧ (d.type = DecoType.tree → d.health.getD 100 ≤ 0)) := by
  unfold isWalkable
  by_cases hb : ⌊x⌋ < 0 ∨ (w.width : ℤ) ≤ ⌊x⌋ ∨ ⌊y⌋ < 0 ∨ (w.height : ℤ) ≤ ⌊y⌋
  · rw [if_pos hb]
    simp only [Bool.false_eq_true, false_iff]
    rintro ⟨⟨h1, h2, h3, h4⟩, -⟩
    rcases hb with h | h | h | h <;> omega
  · rw [if_neg hb]
    push_neg at hb
    obtain ⟨h1, h2, h3, h4⟩ := hb
    by_cases hw : (w.tileFn ⌊x⌋ ⌊y⌋).type = Terrain.water
    · rw [if_pos hw]
      simp only [Bool.false_eq_true, false_iff]
      rintro ⟨-, hnw, -⟩
      exact hnw hw
    · rw [if_neg hw]
      cases hd : (w.tileFn ⌊x⌋ ⌊y⌋).decoration with
      | none =>
        simp only [hd]
        constructor
        · intro _
          exact ⟨⟨h1, h2, h3, h4⟩, hw, by simp⟩
        · intro _; trivial
      | some d =>
        simp only [hd]
        by_cases hr : d.type = DecoType.rock
        · rw [if_pos hr]
          simp only [Bool.false_eq_true, false_iff]
          rintro ⟨-, -, hall⟩
          exact (hall d rfl).1 hr
        · rw [if_neg hr]
          by_cases ht : d.type = DecoType.tree
          · rw [if_pos ht]
            simp only [decide_eq_true_eq]
            constructor
            · intro h
              refine ⟨⟨h1, h2, h3, h4⟩, hw, ?_⟩
              rintro d' hd'
              cases hd'
              exact ⟨hr, fun _ => h⟩
            · rintro ⟨-, -, hall⟩
              exact (hall d rfl).2 ht
          · rw [if_neg ht]
            constructor
            · intro _
              refine ⟨⟨h1, h2, h3, h4⟩, hw, ?_⟩
              rintro d' hd'
              cases hd'
              exact ⟨hr, fun h => absurd h ht⟩
            · intro _; trivial

/-- C1: for every coordinate, `isWalkable` is decided by the ordered rule: outside
the grid → false; water terrain → false; no decoration → true; a rock → false;
a tree → walkable exactly when its health ≤ 0; otherwise (flower decoration, or
path/grass terrain) → true.  The right-hand side packages precisely that case
analysis: in bounds, not water, decoration not a rock, and a tree decoration
passes only with health ≤ 0 (so `none` and flowers always pass). -/
theorem c1_isWalkable_rule (w : World) (x y : ℚ) :
    isWalkable w x y = true ↔
      (0 ≤ ⌊x⌋ ∧ ⌊x⌋ < (w.width : ℤ) ∧ 0 ≤ ⌊y⌋ ∧ ⌊y⌋ < (w.height : ℤ)) ∧
      (w.tileFn ⌊x⌋ ⌊y⌋).type ≠ Terrain.water ∧
      (∀ d, (w.tileFn ⌊x⌋ ⌊y⌋).decoration = some d →
        d.type ≠ DecoType.rock ∧ (d.type = DecoType.tree → d.health.getD 100 ≤ 0)) :=
  isWalkable_eq_true_iff w x y

lemma setDecoration_width (w : World) (i j : ℤ) (d : Option Decoration) :
    (w.setDecoration i j d).width = w.width := rfl

lemma setDecoration_height (w : World) (i j : ℤ) (d : Option Decoration) :
    (w.setDecoration i j d).height = w.height := rfl

lemma setDecoration_tileFn_self (w : World) (i j : ℤ) (d : Option Decoration) :
    (w.setDecoration i j d).tileFn i j = { w.tileFn i j with decoration := d } := by
  unfold World.setDecoration
  simp

lemma setDecoration_tileFn_of_ne (w : World) (i j : ℤ) (d : Option Decoration)
    (a b : ℤ) (h : ¬(a = i ∧ b = j)) :
    (w.setDecoration i j d).tileFn a b = w.tileFn a b := by
  unfold World.setDecoration
  simp [h]

lemma damageTree_of_oob (w : World) (dir : Vec2) (now x y : ℚ)
    (h : ⌊x⌋ < 0 ∨ (w.width : ℤ) ≤ ⌊x⌋ ∨ ⌊y⌋ < 0 ∨ (w.height : ℤ) ≤ ⌊y⌋) :
    damageTree w dir now x y = (w, false) := by
  unfold damageTree
  rw [if_pos h]

lemma damageTree_of_none (w : World) (dir : Vec2) (now x y : ℚ)
    (hd : (w.tileFn ⌊x⌋ ⌊y⌋).decoration = none) :
    damageTree w dir now x y = (w, false) := by
  unfold damageTree
  by_cases h : ⌊x⌋ < 0 ∨ (w.width : ℤ) ≤ ⌊x⌋ ∨ ⌊y⌋ < 0 ∨ (w.height : ℤ) ≤ ⌊y⌋
  · rw [if_pos h]
  · rw [if_neg h]
    simp only [hd]

lemma damageTree_of_guardFail (w : World) (dir : Vec2) (now x y : ℚ)
    (d : Decoration) (hd : (w.tileFn ⌊x⌋ ⌊y⌋).decoration = some d)
    (h : ¬(d.type = DecoType.tree ∧ 0 < d.health.getD 100)) :
    damageTree w dir now x y = (w, false) := by
  unfold damageTree
  by_cases hb : ⌊x⌋ < 0 ∨ (w.width : ℤ) ≤ ⌊x⌋ ∨ ⌊y⌋ < 0 ∨ (w.height : ℤ) ≤ ⌊y⌋
  · rw [if_pos hb]
  · rw [if_neg hb]
    simp only [hd]
    rw [if_neg h]

lemma damageTree_of_chop (w : World) (dir : Vec2) (now x y : ℚ)
    (d : Decoration)
    (hin : ¬(⌊x⌋ < 0 ∨ (w.width : ℤ) ≤ ⌊x⌋ ∨ ⌊y⌋ < 0 ∨ (w.height : ℤ) ≤ ⌊y⌋))
    (hd : (w.tileFn ⌊x⌋ ⌊y⌋).decoration = some d)
    (ht : d.type = DecoType.tree) (hpos : 0 < d.health.getD 100)
    (hlive : 0 < d.health.getD 100 - 34) :
    damageTree w dir now x y =
      (w.setDecoration ⌊x⌋ ⌊y⌋ (some
        { d with health := some (d.health.getD 100 - 34),
                 shakeEndTime := some (now + 150) }), false) := by
  unfold damageTree
  rw [if_neg hin]
  simp only [hd]
  rw [if_pos ⟨ht, hpos⟩, if_neg (by omega)]

lemma damageTree_of_fell (w : World) (dir : Vec2) (now x y : ℚ)
    (d : Decoration)
    (hin : ¬(⌊x⌋ < 0 ∨ (w.width : ℤ) ≤ ⌊x⌋ ∨ ⌊y⌋ < 0 ∨ (w.height : ℤ) ≤ ⌊y⌋))
    (hd : (w.tileFn ⌊x⌋ ⌊y⌋).decoration = some d)
    (ht : d.type = DecoType.tree) (hpos : 0 < d.health.getD 100)
    (hfell : d.health.getD 100 - 34 ≤ 0) :
    damageTree w dir now x y =
      (w.setDecoration ⌊x⌋ ⌊y⌋ (some
        { d with health := some (d.health.getD 100 - 34),
                 shakeEndTime := some (now + 150),
                 state := some TreeState.falling,
                 fallAngle := some 0,
                 fallDirection := some dir,
                 opacity := some 1 }), true) := by
  unfold damageTree
  rw [if_neg hin]
  simp only [hd]
  rw [if_pos ⟨ht, hpos⟩, if_pos hfell]

lemma treeFrame_some_spec (halfPi dt : ℚ) (d d' : Decoration)
    (h : treeFrame halfPi dt d = some d') :
    d'.type = d.type ∧ d'.health = d.health := by
  simp only [treeFrame] at h
  split_ifs at h <;>
    first
      | exact Option.noConfusion h
      | (simp only [Option.some.injEq] at h; subst h; exact ⟨rfl, rfl⟩)

lemma treeFrame_of_not_active (halfPi dt : ℚ) (d : Decoration)
    (h1 : ¬(d.type = DecoType.tree ∧ d.state = some TreeState.falling))
    (h2 : ¬(d.type = DecoType.tree ∧ d.state = some TreeState.fading)) :
    treeFrame halfPi dt d = some d := by
  simp only [treeFrame]
  rw [if_neg h1, if_neg h2]

lemma treeFrame_of_falling (halfPi dt : ℚ) (d : Decoration)
    (ht : d.type = DecoType.tree) (hs : d.state = some TreeState.falling) :
    treeFrame halfPi dt d =
      (if halfPi ≤ d.fallAngle.getD 0 + dt * (5 / 2) then
        some { d with fallAngle := some halfPi, state := some TreeState.fading }
      else
        some { d with fallAngle := some (d.fallAngle.getD 0 + dt * (5 / 2)) }) := by
  simp only [treeFrame]
  rw [if_pos ⟨ht, hs⟩]

lemma treeFrame_of_fading (halfPi dt : ℚ) (d : Decoration)
    (ht : d.type = DecoType.tree) (hs : d.state = some TreeState.fading) :
    treeFrame halfPi dt d =
      (if d.opacity.getD 1 - dt * 2 ≤ 0 then none
      else some { d with opacity := some (d.opacity.getD 1 - dt * 2) }) := by
  simp only [treeFrame]
  rw [if_neg (by rintro ⟨-, h⟩; rw [hs] at h; cases h), if_pos ⟨ht, hs⟩]

lemma updateFallingTrees_width (halfPi deltaTime : ℚ) (w : World) :
    (updateFallingTrees halfPi deltaTime w).width = w.width := rfl

lemma updateFallingTrees_height (halfPi deltaTime : ℚ) (w : World) :
    (updateFallingTrees halfPi deltaTime w).height = w.height := rfl

lemma updateFallingTrees_tileFn (halfPi deltaTime : ℚ) (w : World) (i j : ℤ) :
    (updateFallingTrees halfPi deltaTime w).tileFn i j =
      { w.tileFn i j with
        decoration := (w.tileFn i j).decoration.bind (treeFrame halfPi (deltaTime / 1000)) } := rfl

lemma damageTree_world_spec (w : World) (dir : Vec2) (now x y : ℚ) :
    (damageTree w dir now x y).1 = w ∨
    ∃ d, (w.tileFn ⌊x⌋ ⌊y⌋).decoration = some d ∧ d.type = DecoType.tree ∧
      0 < d.health.getD 100 ∧
      ∃ d2, (damageTree w dir now x y).1 = w.setDecoration ⌊x⌋ ⌊y⌋ (some d2) ∧
        d2.type = d.type ∧ d2.health = some (d.health.getD 100 - 34) ∧
        d2.state = (if d.health.getD 100 - 34 ≤ 0 then some TreeState.falling else d.state) := by
  by_cases hb : ⌊x⌋ < 0 ∨ (w.width : ℤ) ≤ ⌊x⌋ ∨ ⌊y⌋ < 0 ∨ (w.height : ℤ) ≤ ⌊y⌋
  · rw [damageTree_of_oob w dir now x y hb]
    exact Or.inl rfl
  · cases hd : (w.tileFn ⌊x⌋ ⌊y⌋).decoration with
    | none => rw [damageTree_of_none w dir now x y hd]; exact Or.inl rfl
    | some d =>
      by_cases hg : d.type = DecoType.tree ∧ 0 < d.health.getD 100
      · by_cases hfell : d.health.getD 100 - 34 ≤ 0
        · rw [damageTree_of_fell w dir now x y d hb hd hg.1 hg.2 hfell]
          refine Or.inr ⟨d, rfl, hg.1, hg.2, ?_⟩
          refine ⟨_, rfl, rfl, rfl, ?_⟩
          rw [if_pos hfell]
        · rw [damageTree_of_chop w dir now x y d hb hd hg.1 hg.2 (by omega)]
          refine Or.inr ⟨d, rfl, hg.1, hg.2, ?_⟩
          refine ⟨_, rfl, rfl, rfl, ?_⟩
          rw [if_neg hfell]
      · rw [damageTree_of_guardFail w dir now x y d hd hg]
        exact Or.inl rfl

lemma updatePlayer_cases (interp : Player → ℚ → Player) (deltaTime now : ℚ)
    (input : InputState) (gs : GameState) :
    ((updatePlayer interp deltaTime now input gs).2 = false ∧
      (updatePlayer interp deltaTime now input gs).1.world = gs.world ∧
      (updatePlayer interp deltaTime now input gs).1.chopCooldown = gs.chopCooldown) ∨
    ((updatePlayer interp deltaTime now input gs).2 = true ∧
      gs.chopCooldown ≤ 0 ∧
      (updatePlayer interp deltaTime now input gs).1.chopCooldown = 300 ∧
      ∃ dir tx ty, (updatePlayer interp deltaTime now input gs).1.world =
        (damageTree gs.world dir now tx ty).1) := by
  simp only [updatePlayer]
  split
  · split
    · exact Or.inl ⟨rfl, rfl, rfl⟩
    · exact Or.inl ⟨rfl, rfl, rfl⟩
  · split
    · exact Or.inl ⟨rfl, rfl, rfl⟩
    · split
      · exact Or.inl ⟨rfl, rfl, rfl⟩
      · split
        · rename_i hcd
          split
          · split
            · split
              · exact Or.inr ⟨rfl, hcd, rfl, _, _, _, rfl⟩
              · exact Or.inl ⟨rfl, rfl, rfl⟩
            · exact Or.inl ⟨rfl, rfl, rfl⟩
          · exact Or.inl ⟨rfl, rfl, rfl⟩
        · exact Or.inl ⟨rfl, rfl, rfl⟩

lemma update_cases (halfPi : ℚ) (interp : Player → ℚ → Player) (deltaTime now : ℚ)
    (input : InputState) (gs : GameState) :
    ((update halfPi interp deltaTime now input gs).2 = false ∧
      (update halfPi interp deltaTime now input gs).1.chopCooldown =
        (if 0 < gs.chopCooldown then gs.chopCooldown - deltaTime else gs.chopCooldown) ∧
      (update halfPi interp deltaTime now input gs).1.world =
        updateFallingTrees halfPi deltaTime gs.world) ∨
    ((update halfPi interp deltaTime now input gs).2 = true ∧
      (if 0 < gs.chopCooldown then gs.chopCooldown - deltaTime else gs.chopCooldown) ≤ 0 ∧
      (update halfPi interp deltaTime now input gs).1.chopCooldown = 300 ∧
      ∃ dir tx ty, (update halfPi interp deltaTime now input gs).1.world =
        updateFallingTrees halfPi deltaTime (damageTree gs.world dir now tx ty).1) := by
  rcases updatePlayer_cases interp deltaTime now input
      { gs with chopCooldown :=
          if 0 < gs.chopCooldown then gs.chopCooldown - deltaTime else gs.chopCooldown } with
    ⟨h2, hw, hc⟩ | ⟨h2, hcd, hc, dir, tx, ty, hw⟩
  · exact Or.inl ⟨h2, hc, congrArg (updateFallingTrees halfPi deltaTime) hw⟩
  · exact Or.inr ⟨h2, hcd, hc, dir, tx, ty,
      congrArg (updateFallingTrees halfPi deltaTime) hw⟩

lemma update_cooldown_lb (halfPi : ℚ) (interp : Player → ℚ → Player)
    (deltaTime now : ℚ) (input : InputState) (gs : GameState) (hδ : 0 ≤ deltaTime) :
    gs.chopCooldown - deltaTime ≤ (update halfPi interp deltaTime now input gs).1.chopCooldown := by
  rcases update_cases halfPi interp deltaTime now input gs with
    ⟨-, hc, -⟩ | ⟨-, hcd, hc, -⟩
  · rw [hc]; split_ifs <;> linarith
  · rw [hc]; split_ifs at hcd <;> linarith

lemma runFrames_nil (halfPi : ℚ) (interp : Player → ℚ → Player) (gs : GameState) :
    runFrames halfPi interp [] gs = gs := rfl

lemma runFrames_cons (halfPi : ℚ) (interp : Player → ℚ → Player)
    (f : Frame) (fs : List Frame) (gs : GameState) :
    runFrames halfPi interp (f :: fs) gs =
      runFrames halfPi interp fs (stepFrame halfPi interp f gs).1 := rfl

lemma runFrames_cooldown_lb (halfPi : ℚ) (interp : Player → ℚ → Player)
    (frames : List Frame) (gs : GameState) (hδ : ∀ f ∈ frames, 0 ≤ f.delta) :
    gs.chopCooldown - sumDelta frames ≤ (runFrames halfPi interp frames gs).chopCooldown := by
  induction frames generalizing gs with
  | nil => simp [runFrames, sumDelta]
  | cons f fs ih =>
    have h1 : gs.chopCooldown - f.delta ≤ (stepFrame halfPi interp f gs).1.chopCooldown :=
      update_cooldown_lb halfPi interp f.delta f.now f.input gs (hδ f (by simp))
    have h2 := ih (stepFrame halfPi interp f gs).1 (fun g hg => hδ g (by simp [hg]))
    rw [runFrames_cons]
    have hs : sumDelta (f :: fs) = f.delta + sumDelta fs := by
      simp [sumDelta]
    rw [hs]
    linarith

/-- C3: cooldown exclusivity.  In every execution trace, when a chop fires at one
frame and again at a later frame, the delta time consumed strictly after the
first chop up to and including the second chop's frame totals at least 300 ms —
regardless of which tile is targeted, since the countdown is global.  The
second conjunct is the mechanism: a chop only fires when the (just-decremented)
global countdown is ≤ 0, and every chop re-arms it to 300 ms. -/
theorem c3_cooldown_exclusivity (halfPi : ℚ) (interp : Player → ℚ → Player)
    (gs : GameState) (pre mid : List Frame) (fi fj : Frame)
    (hmid : ∀ f ∈ mid, 0 ≤ f.delta) (hfj : 0 ≤ fj.delta)
    (h1 : (stepFrame halfPi interp fi (runFrames halfPi interp pre gs)).2 = true)
    (h2 : (stepFrame halfPi interp fj (runFrames halfPi interp mid
        (stepFrame halfPi interp fi (runFrames halfPi interp pre gs)).1)).2 = true) :
    300 ≤ sumDelta mid + fj.delta ∧
    ∀ gs' f, (stepFrame halfPi interp f gs').2 = true →
      (if 0 < gs'.chopCooldown then gs'.chopCooldown - f.delta else gs'.chopCooldown) ≤ 0 ∧
      (stepFrame halfPi interp f gs').1.chopCooldown = 300 := by
  have mech : ∀ gs' f, (stepFrame halfPi interp f gs').2 = true →
      (if 0 < gs'.chopCooldown then gs'.chopCooldown - f.delta else gs'.chopCooldown) ≤ 0 ∧
      (stepFrame halfPi interp f gs').1.chopCooldown = 300 := by
    intro gs' f hchop
    rcases update_cases halfPi interp f.delta f.now f.input gs' with
      ⟨hfalse, -, -⟩ | ⟨-, hcd, hc, -⟩
    · rw [stepFrame] at hchop; rw [hchop] at hfalse; cases hfalse
    · exact ⟨hcd, hc⟩
  refine ⟨?_, mech⟩
  have hc1 : (stepFrame halfPi interp fi (runFrames halfPi interp pre gs)).1.chopCooldown = 300 :=
    (mech _ fi h1).2
  have hlb := runFrames_cooldown_lb halfPi interp mid
    (stepFrame halfPi interp fi (runFrames halfPi interp pre gs)).1 hmid
  rw [hc1] at hlb
  have hcd2 := (mech _ fj h2).1
  split_ifs at hcd2 <;> linarith

lemma updatePlayer_of_noIntent (interp : Player → ℚ → Player) (deltaTime now : ℚ)
    (input : InputState) (gs : GameState) (hmov : gs.isMoving = false)
    (hint : intentDx input = 0 ∧ intentDy input = 0) :
    updatePlayer interp deltaTime now input gs = (gs, false) := by
  simp only [updatePlayer, hmov, Bool.false_eq_true, if_false, if_pos hint]

lemma updatePlayer_of_walk (interp : Player → ℚ → Player) (deltaTime now : ℚ)
    (input : InputState) (gs : GameState) (hmov : gs.isMoving = false)
    (hint : ¬(intentDx input = 0 ∧ intentDy input = 0))
    (hwalk : isWalkable gs.world ((round gs.player.x + intentDx input : ℤ) : ℚ)
      ((round gs.player.y + intentDy input : ℤ) : ℚ) = true) :
    updatePlayer interp deltaTime now input gs =
      ({ gs with
          player := { gs.player with
            targetX := ((round gs.player.x + intentDx input : ℤ) : ℚ)
            targetY := ((round gs.player.y + intentDy input : ℤ) : ℚ) }
          isMoving := true }, false) := by
  simp only [updatePlayer, hmov, Bool.false_eq_true, if_false, if_neg hint, hwalk, if_true]

lemma updatePlayer_of_chop (interp : Player → ℚ → Player) (deltaTime now : ℚ)
    (input : InputState) (gs : GameState) (d : Decoration)
    (hmov : gs.isMoving = false)
    (hint : ¬(intentDx input = 0 ∧ intentDy input = 0))
    (hnw : isWalkable gs.world ((round gs.player.x + intentDx input : ℤ) : ℚ)
      ((round gs.player.y + intentDy input : ℤ) : ℚ) = false)
    (hcd : gs.chopCooldown ≤ 0)
    (hin : 0 ≤ round gs.player.x + intentDx input ∧
      round gs.player.x + intentDx input < (gs.world.width : ℤ) ∧
      0 ≤ round gs.player.y + intentDy input ∧
      round gs.player.y + intentDy input < (gs.world.height : ℤ))
    (hd : (gs.world.tileFn (round gs.player.x + intentDx input)
      (round gs.player.y + intentDy input)).decoration = some d)
    (ht : d.type = DecoType.tree) :
    updatePlayer interp deltaTime now input gs =
      ({ gs with
          world := (damageTree gs.world
            ⟨((gs.world.tileFn (round gs.player.x + intentDx input)
                (round gs.player.y + intentDy input)).x : ℚ) + 1 / 2 - gs.player.x,
             ((gs.world.tileFn (round gs.player.x + intentDx input)
                (round gs.player.y + intentDy input)).y : ℚ) + 1 / 2 - gs.player.y⟩
            now
            ((round gs.player.x + intentDx input : ℤ) : ℚ)
            ((round gs.player.y + intentDy input : ℤ) : ℚ)).1
          chopCooldown := 300 }, true) := by
  have hfx : ⌊((round gs.player.x + intentDx input : ℤ) : ℚ)⌋ =
      round gs.player.x + intentDx input := Int.floor_intCast _
  have hfy : ⌊((round gs.player.y + intentDy input : ℤ) : ℚ)⌋ =
      round gs.player.y + intentDy input := Int.floor_intCast _
  simp only [updatePlayer, hmov, Bool.false_eq_true, if_false, if_neg hint, hnw,
    Bool.false_eq_true, if_false, if_pos hcd, hfx, hfy, if_pos hin, hd, ht, if_pos rfl]
  rfl

lemma isWalkable_false_of_tree (w : World) (x y : ℚ) (d : Decoration)
    (hd : (w.tileFn ⌊x⌋ ⌊y⌋).decoration = some d)
    (ht : d.type = DecoType.tree) (hpos : 0 < d.health.getD 100) :
    isWalkable w x y = false := by
  cases hb : isWalkable w x y with
  | false => rfl
  | true =>
    rw [isWalkable_eq_true_iff] at hb
    have := (hb.2.2 d hd).2 ht
    omega

lemma damageTree_width (w : World) (dir : Vec2) (now x y : ℚ) :
    (damageTree w dir now x y).1.width = w.width := by
  rcases damageTree_world_spec w dir now x y with hw | ⟨d, -, -, -, d2, hw, -⟩ <;>
    rw [hw] <;> rfl

lemma damageTree_height (w : World) (dir : Vec2) (now x y : ℚ) :
    (damageTree w dir now x y).1.height = w.height := by
  rcases damageTree_world_spec w dir now x y with hw | ⟨d, -, -, -, d2, hw, -⟩ <;>
    rw [hw] <;> rfl

lemma treeFrame_falling_exists (halfPi dt : ℚ) (d : Decoration)
    (ht : d.type = DecoType.tree) (hs : d.state = some TreeState.falling) :
    ∃ d', treeFrame halfPi dt d = some d' ∧ d'.health = d.health ∧
      (d'.state = some TreeState.falling ∨ d'.state = some TreeState.fading) := by
  rw [treeFrame_of_falling halfPi dt d ht hs]
  split_ifs with hc
  · exact ⟨_, rfl, rfl, Or.inr rfl⟩
  · exact ⟨_, rfl, rfl, Or.inl hs⟩

lemma tile_with_decoration (t : Tile) (d : Option Decoration) :
    ({ t with decoration := d } : Tile).decoration = d := rfl

lemma bind_some_eq {β : Type} (a : Decoration) (g : Decoration → Option β) :
    (some a).bind g = g a := rfl

lemma stepFrame_chop (halfPi : ℚ) (interp : Player → ℚ → Player) (f : Frame)
    (gs : GameState) (d : Decoration) (h : ℤ)
    (hmov : gs.isMoving = false)
    (hint : ¬(intentDx f.input = 0 ∧ intentDy f.input = 0))
    (hcd : (if 0 < gs.chopCooldown then gs.chopCooldown - f.delta else gs.chopCooldown) ≤ 0)
    (hin : 0 ≤ round gs.player.x + intentDx f.input ∧
      round gs.player.x + intentDx f.input < (gs.world.width : ℤ) ∧
      0 ≤ round gs.player.y + intentDy f.input ∧
      round gs.player.y + intentDy f.input < (gs.world.height : ℤ))
    (hd : (gs.world.tileFn (round gs.player.x + intentDx f.input)
      (round gs.player.y + intentDy f.input)).decoration = some d)
    (ht : d.type = DecoType.tree)
    (hs : d.state = some TreeState.healthy)
    (hh : d.health = some h)
    (hpos : 0 < h) :
    (stepFrame halfPi interp f gs).2 = true ∧
    (stepFrame halfPi interp f gs).1.chopCooldown = 300 ∧
    (stepFrame halfPi interp f gs).1.player = gs.player ∧
    (stepFrame halfPi interp f gs).1.isMoving = false ∧
    (stepFrame halfPi interp f gs).1.world.width = gs.world.width ∧
    (stepFrame halfPi interp f gs).1.world.height = gs.world.height ∧
    (0 < h - 34 →
      ((stepFrame halfPi interp f gs).1.world.tileFn (round gs.player.x + intentDx f.input)
        (round gs.player.y + intentDy f.input)).decoration =
        some { d with health := some (h - 34), shakeEndTime := some (f.now + 150) }) ∧
    (h - 34 ≤ 0 →
      ∃ d', ((stepFrame halfPi interp f gs).1.world.tileFn (round gs.player.x + intentDx f.input)
          (round gs.player.y + intentDy f.input)).decoration = some d' ∧
        d'.health = some (h - 34) ∧
        (d'.state = some TreeState.falling ∨ d'.state = some TreeState.fading)) := by
  set cx : ℤ := round gs.player.x + intentDx f.input with hcx
  set cy : ℤ := round gs.player.y + intentDy f.input with hcy
  have hfx : ⌊((cx : ℤ) : ℚ)⌋ = cx := Int.floor_intCast _
  have hfy : ⌊((cy : ℤ) : ℚ)⌋ = cy := Int.floor_intCast _
  set gs0 : GameState := { gs with chopCooldown :=
    if 0 < gs.chopCooldown then gs.chopCooldown - f.delta else gs.chopCooldown } with hgs0
  have hw0 : gs0.world = gs.world := rfl
  have hd0 : (gs0.world.tileFn ⌊((cx : ℤ) : ℚ)⌋ ⌊((cy : ℤ) : ℚ)⌋).decoration = some d := by
    rw [hfx, hfy, hw0]; exact hd
  have hgd : d.health.getD 100 = h := by rw [hh]; rfl
  have hnw : isWalkable gs0.world ((cx : ℤ) : ℚ) ((cy : ℤ) : ℚ) = false :=
    isWalkable_false_of_tree gs0.world _ _ d hd0 ht (by rw [hgd]; exact hpos)
  have hbnd : ¬(⌊((cx : ℤ) : ℚ)⌋ < 0 ∨ (gs0.world.width : ℤ) ≤ ⌊((cx : ℤ) : ℚ)⌋ ∨
      ⌊((cy : ℤ) : ℚ)⌋ < 0 ∨ (gs0.world.height : ℤ) ≤ ⌊((cy : ℤ) : ℚ)⌋) := by
    rw [hfx, hfy, hw0]
    rintro (hb | hb | hb | hb) <;> omega
  have hup := updatePlayer_of_chop interp f.delta f.now f.input gs0 d hmov hint hnw hcd hin hd ht
  have hstep : stepFrame halfPi interp f gs =
      ({ (updatePlayer interp f.delta f.now f.input gs0).1 with
          world := updateFallingTrees halfPi f.delta
            (updatePlayer interp f.delta f.now f.input gs0).1.world },
        (updatePlayer interp f.delta f.now f.input gs0).2) := rfl
  rw [hstep, hup]
  refine ⟨rfl, rfl, rfl, hmov, ?_, ?_, ?_, ?_⟩
  · show (updateFallingTrees halfPi f.delta _).width = gs.world.width
    rw [updateFallingTrees_width, damageTree_width, hw0]
  · show (updateFallingTrees halfPi f.delta _).height = gs.world.height
    rw [updateFallingTrees_height, damageTree_height, hw0]
  · intro hlive
    have hchop := damageTree_of_chop gs0.world
      ⟨((gs0.world.tileFn cx cy).x : ℚ) + 1 / 2 - gs0.player.x,
       ((gs0.world.tileFn cx cy).y : ℚ) + 1 / 2 - gs0.player.y⟩
      f.now ((cx : ℤ) : ℚ) ((cy : ℤ) : ℚ) d hbnd hd0 ht
      (by rw [hgd]; exact hpos) (by rw [hgd]; exact hlive)
    rw [updateFallingTrees_tileFn, hchop, hfx, hfy, setDecoration_tileFn_self,
      tile_with_decoration, bind_some_eq, hgd]
    apply treeFrame_of_not_active
    · rintro ⟨-, hfall⟩
      have hq : d.state = some TreeState.falling := hfall
      rw [hs] at hq
      cases hq
    · rintro ⟨-, hfade⟩
      have hq : d.state = some TreeState.fading := hfade
      rw [hs] at hq
      cases hq
  · intro hfell
    have hchop := damageTree_of_fell gs0.world
      ⟨((gs0.world.tileFn cx cy).x : ℚ) + 1 / 2 - gs0.player.x,
       ((gs0.world.tileFn cx cy).y : ℚ) + 1 / 2 - gs0.player.y⟩
      f.now ((cx : ℤ) : ℚ) ((cy : ℤ) : ℚ) d hbnd hd0 ht
      (by rw [hgd]; exact hpos) (by rw [hgd]; exact hfell)
    rw [updateFallingTrees_tileFn, hchop, hfx, hfy, setDecoration_tileFn_self,
      tile_with_decoration, bind_some_eq, hgd]
    obtain ⟨d', he, hhp, hst⟩ := treeFrame_falling_exists halfPi (f.delta / 1000) { d with health := some (h - 34), shakeEndTime := some (f.now + 150), state := some TreeState.falling, fallAngle := some 0, fallDirection := some (Vec2.mk (((gs0.world.tileFn cx cy).x : ℚ) + 1 / 2 - gs0.player.x) (((gs0.world.tileFn cx cy).y : ℚ) + 1 / 2 - gs0.player.y)), opacity := some 1 } ht rfl
    exact ⟨d', he, hhp, hst⟩

lemma depletion_sample :
    ∃ d', ((runFrames (157 / 100) interpId [chopF, chopF, chopF] sampleGs).world.tileFn 1 0).decoration = some d' ∧
      d'.health = some (-2) := by
  have hint : ¬(intentDx chopF.input = 0 ∧ intentDy chopF.input = 0) := by decide
  rw [runFrames_cons, runFrames_cons, runFrames_cons, runFrames_nil]
  obtain ⟨-, hc1, hp1, hm1, hw1, hh1, hF1, -⟩ :=
    stepFrame_chop (157 / 100) interpId chopF sampleGs sampleTreeDeco 100
      rfl hint (by norm_num [sampleGs])
      (by norm_num [sampleGs, sampleW, intentDx, intentDy, inpRight, chopF])
      (by norm_num [sampleGs, sampleW, intentDx, intentDy, inpRight, chopF, sampleTreeDeco])
      rfl rfl rfl (by norm_num)
  set s1 : GameState := (stepFrame (157 / 100) interpId chopF sampleGs).1 with hs1
  have hd1 : (s1.world.tileFn 1 0).decoration =
      some { sampleTreeDeco with health := some 66, shakeEndTime := some 150 } := by
    have := hF1 (by norm_num)
    norm_num [sampleGs, intentDx, intentDy, inpRight, chopF] at this
    convert this using 4 <;> norm_num [chopF]
  have hix1 : round s1.player.x + intentDx chopF.input = 1 := by
    rw [hp1]; norm_num [sampleGs, intentDx, inpRight, chopF]
  have hiy1 : round s1.player.y + intentDy chopF.input = 0 := by
    rw [hp1]; norm_num [sampleGs, intentDy, inpRight, chopF]
  obtain ⟨-, hc2, hp2, hm2, hw2, hh2, hF2, -⟩ :=
    stepFrame_chop (157 / 100) interpId chopF s1
      { sampleTreeDeco with health := some 66, shakeEndTime := some 150 } 66
      hm1 hint (by rw [hc1]; norm_num [chopF])
      (by rw [hix1, hiy1, hw1, hh1]; norm_num [sampleGs, sampleW])
      (by rw [hix1, hiy1]; exact hd1)
      rfl rfl rfl (by norm_num)
  set s2 : GameState := (stepFrame (157 / 100) interpId chopF s1).1 with hs2
  have hd2 : (s2.world.tileFn 1 0).decoration =
      some { sampleTreeDeco with health := some 32, shakeEndTime := some 150 } := by
    have := hF2 (by norm_num)
    rw [hix1, hiy1] at this
    convert this using 4 <;> norm_num [chopF]
  have hix2 : round s2.player.x + intentDx chopF.input = 1 := by
    rw [hp2, hp1]; norm_num [sampleGs, intentDx, inpRight, chopF]
  have hiy2 : round s2.player.y + intentDy chopF.input = 0 := by
    rw [hp2, hp1]; norm_num [sampleGs, intentDy, inpRight, chopF]
  obtain ⟨-, -, -, -, -, -, -, hG3⟩ :=
    stepFrame_chop (157 / 100) interpId chopF s2
      { sampleTreeDeco with health := some 32, shakeEndTime := some 150 } 32
      hm2 hint (by rw [hc2]; norm_num [chopF])
      (by rw [hix2, hiy2, hw2, hw1, hh2, hh1]; norm_num [sampleGs, sampleW])
      (by rw [hix2, hiy2]; exact hd2)
      rfl rfl rfl (by norm_num)
  obtain ⟨d', hdeco, hhealth, -⟩ := hG3 (by norm_num)
  rw [hix2, hiy2] at hdeco
  refine ⟨d', hdeco, ?_⟩
  rw [hhealth]
  norm_num

lemma c7_tile : (generateWorld rngC7).tileFn 1 1 = ⟨1, 1, Terrain.grass, some c7TreeDeco⟩ := by
  norm_num [generateWorld, createTile, rngC7, rngTree, c7TreeDeco, WORLD_SIZE]

lemma depletion_generated :
    ∃ d', ((runFrames (157 / 100) interpId [chopF, chopF, chopF] gsC7).world.tileFn 1 1).decoration = some d' ∧
      d'.health = some (-2) := by
  have hint : ¬(intentDx chopF.input = 0 ∧ intentDy chopF.input = 0) := by decide
  have hrx : round gsC7.player.x = 0 := by
    show round ((0 : ℤ) : ℚ) = 0
    rw [round_intCast]
  have hry : round gsC7.player.y = 1 := by
    show round ((1 : ℤ) : ℚ) = 1
    rw [round_intCast]
  rw [runFrames_cons, runFrames_cons, runFrames_cons, runFrames_nil]
  obtain ⟨-, hc1, hp1, hm1, hw1, hh1, hF1, -⟩ :=
    stepFrame_chop (157 / 100) interpId chopF gsC7 c7TreeDeco 100
      rfl hint (by norm_num [gsC7])
      (by rw [hrx, hry]; norm_num [gsC7, generateWorld, WORLD_SIZE, intentDx, intentDy, inpRight, chopF])
      (by rw [hrx, hry]; norm_num [intentDx, intentDy, inpRight, chopF]; rw [show (gsC7.world.tileFn 1 1) = ⟨1, 1, Terrain.grass, some c7TreeDeco⟩ from c7_tile])
      rfl rfl rfl (by norm_num)
  set s1 : GameState := (stepFrame (157 / 100) interpId chopF gsC7).1 with hs1
  have hd1 : (s1.world.tileFn 1 1).decoration =
      some { c7TreeDeco with health := some 66, shakeEndTime := some 150 } := by
    have := hF1 (by norm_num)
    rw [hrx, hry] at this
    norm_num [intentDx, intentDy, inpRight, chopF] at this
    convert this using 4 <;> norm_num [chopF]
  have hix1 : round s1.player.x + intentDx chopF.input = 1 := by
    rw [hp1, hrx]; norm_num [intentDx, inpRight, chopF]
  have hiy1 : round s1.player.y + intentDy chopF.input = 1 := by
    rw [hp1, hry]; norm_num [intentDy, inpRight, chopF]
  obtain ⟨-, hc2, hp2, hm2, hw2, hh2, hF2, -⟩ :=
    stepFrame_chop (157 / 100) interpId chopF s1
      { c7TreeDeco with health := some 66, shakeEndTime := some 150 } 66
      hm1 hint (by rw [hc1]; norm_num [chopF])
      (by rw [hix1, hiy1, hw1, hh1]; norm_num [gsC7, generateWorld, WORLD_SIZE])
      (by rw [hix1, hiy1]; exact hd1)
      rfl rfl rfl (by norm_num)
  set s2 : GameState := (stepFrame (157 / 100) interpId chopF s1).1 with hs2
  have hd2 : (s2.world.tileFn 1 1).decoration =
      some { c7TreeDeco with health := some 32, shakeEndTime := some 150 } := by
    have := hF2 (by norm_num)
    rw [hix1, hiy1] at this
    convert this using 4 <;> norm_num [chopF]
  have hix2 : round s2.player.x + intentDx chopF.input = 1 := by
    rw [hp2, hp1, hrx]; norm_num [intentDx, inpRight, chopF]
  have hiy2 : round s2.player.y + intentDy chopF.input = 1 := by
    rw [hp2, hp1, hry]; norm_num [intentDy, inpRight, chopF]
  obtain ⟨-, -, -, -, -, -, -, hG3⟩ :=
    stepFrame_chop (157 / 100) interpId chopF s2
      { c7TreeDeco with health := some 32, shakeEndTime := some 150 } 32
      hm2 hint (by rw [hc2]; norm_num [chopF])
      (by rw [hix2, hiy2, hw2, hw1, hh2, hh1]; norm_num [gsC7, generateWorld, WORLD_SIZE])
      (by rw [hix2, hiy2]; exact hd2)
      rfl rfl rfl (by norm_num)
  obtain ⟨d', hdeco, hhealth, -⟩ := hG3 (by norm_num)
  rw [hix2, hiy2] at hdeco
  refine ⟨d', hdeco, ?_⟩
  rw [hhealth]
  norm_num

lemma damageTree_walkable_mono (w : World) (dir : Vec2) (now a b x y : ℚ)
    (h : isWalkable w x y = true) :
    isWalkable (damageTree w dir now a b).1 x y = true := by
  rcases damageTree_world_spec w dir now a b with hw | ⟨d, hd, ht, hpos, d2, hw, ht2, hh2, hs2⟩
  · rw [hw]; exact h
  · rw [hw]
    rw [isWalkable_eq_true_iff] at h ⊢
    obtain ⟨hb, hnw, hdec⟩ := h
    refine ⟨hb, ?_, ?_⟩
    · by_cases heq : ⌊x⌋ = ⌊a⌋ ∧ ⌊y⌋ = ⌊b⌋
      · obtain ⟨hx, hy⟩ := heq
        rw [hx, hy, setDecoration_tileFn_self]
        show (w.tileFn ⌊a⌋ ⌊b⌋).type ≠ Terrain.water
        rw [← hx, ← hy]
        exact hnw
      · rw [setDecoration_tileFn_of_ne _ _ _ _ _ _ heq]
        exact hnw
    · intro d' hd'
      by_cases heq : ⌊x⌋ = ⌊a⌋ ∧ ⌊y⌋ = ⌊b⌋
      · obtain ⟨hx, hy⟩ := heq
        have hdq : (w.tileFn ⌊x⌋ ⌊y⌋).decoration = some d := by rw [hx, hy]; exact hd
        have := (hdec d hdq).2 ht
        omega
      · rw [setDecoration_tileFn_of_ne _ _ _ _ _ _ heq] at hd'
        exact hdec d' hd'

lemma updateFallingTrees_walkable_mono (halfPi deltaTime : ℚ) (w : World) (x y : ℚ)
    (h : isWalkable w x y = true) :
    isWalkable (updateFallingTrees halfPi deltaTime w) x y = true := by
  rw [isWalkable_eq_true_iff] at h ⊢
  obtain ⟨hb, hnw, hdec⟩ := h
  refine ⟨hb, ?_, ?_⟩
  · rw [updateFallingTrees_tileFn]
    exact hnw
  · intro d' hd'
    rw [updateFallingTrees_tileFn, tile_with_decoration] at hd'
    cases hdo : (w.tileFn ⌊x⌋ ⌊y⌋).decoration with
    | none =>
      rw [hdo] at hd'
      exact Option.noConfusion hd'
    | some d0 =>
      rw [hdo, bind_some_eq] at hd'
      have hspec := treeFrame_some_spec halfPi (deltaTime / 1000) d0 d' hd'
      have h0 := hdec d0 hdo
      refine ⟨?_, fun htr => ?_⟩
      · rw [hspec.1]
        exact h0.1
      · rw [hspec.2]
        exact h0.2 (by rw [← hspec.1]; exact htr)

lemma update_walkable_mono (halfPi : ℚ) (interp : Player → ℚ → Player)
    (deltaTime now : ℚ) (input : InputState) (gs : GameState) (x y : ℚ)
    (h : isWalkable gs.world x y = true) :
    isWalkable (update halfPi interp deltaTime now input gs).1.world x y = true := by
  rcases update_cases halfPi interp deltaTime now input gs with
    ⟨-, -, hw⟩ | ⟨-, -, -, dir, tx, ty, hw⟩
  · rw [hw]
    exact updateFallingTrees_walkable_mono _ _ _ _ _ h
  · rw [hw]
    exact updateFallingTrees_walkable_mono _ _ _ _ _
      (damageTree_walkable_mono _ _ _ _ _ _ _ h)

lemma damageTree_inv (w : World) (dir : Vec2) (now x y : ℚ) (hw : treeHealthInv w) :
    treeHealthInv (damageTree w dir now x y).1 := by
  rcases damageTree_world_spec w dir now x y with hE | ⟨d, hd, ht, hpos, d2, hE, ht2, hh2, hs2⟩
  · rw [hE]; exact hw
  · rw [hE]
    intro i j d' hd' htr'
    by_cases heq : i = ⌊x⌋ ∧ j = ⌊y⌋
    · obtain ⟨rfl, rfl⟩ := heq
      rw [setDecoration_tileFn_self, tile_with_decoration] at hd'
      simp only [Option.some.injEq] at hd'
      subst hd'
      rcases hw ⌊x⌋ ⌊y⌋ d hd ht with h100 | h66 | h32 | hm2
      · right; left
        rw [hh2, h100]
        norm_num [Option.getD]
      · right; right; left
        rw [hh2, h66]
        norm_num [Option.getD]
      · right; right; right
        rw [hh2, h32]
        norm_num [Option.getD]
      · rw [hm2] at hpos
        norm_num [Option.getD] at hpos
    · rw [setDecoration_tileFn_of_ne _ _ _ _ _ _ heq] at hd'
      exact hw i j d' hd' htr'

lemma updateFallingTrees_inv (halfPi deltaTime : ℚ) (w : World) (hw : treeHealthInv w) :
    treeHealthInv (updateFallingTrees halfPi deltaTime w) := by
  intro i j d' hd' htr'
  rw [updateFallingTrees_tileFn, tile_with_decoration] at hd'
  cases hdo : (w.tileFn i j).decoration with
  | none =>
    rw [hdo] at hd'
    exact Option.noConfusion hd'
  | some d0 =>
    rw [hdo, bind_some_eq] at hd'
    have hspec := treeFrame_some_spec halfPi (deltaTime / 1000) d0 d' hd'
    have h0 := hw i j d0 hdo (by rw [← hspec.1]; exact htr')
    rw [hspec.2]
    exact h0

lemma update_inv (halfPi : ℚ) (interp : Player → ℚ → Player)
    (deltaTime now : ℚ) (input : InputState) (gs : GameState)
    (hw : treeHealthInv gs.world) :
    treeHealthInv (update halfPi interp deltaTime now input gs).1.world := by
  rcases update_cases halfPi interp deltaTime now input gs with
    ⟨-, -, hE⟩ | ⟨-, -, -, dir, tx, ty, hE⟩
  · rw [hE]
    exact updateFallingTrees_inv _ _ _ hw
  · rw [hE]
    exact updateFallingTrees_inv _ _ _ (damageTree_inv _ _ _ _ _ hw)

lemma runFrames_inv (halfPi : ℚ) (interp : Player → ℚ → Player)
    (frames : List Frame) (gs : GameState) (hw : treeHealthInv gs.world) :
    treeHealthInv (runFrames halfPi interp frames gs).world := by
  induction frames generalizing gs with
  | nil => exact hw
  | cons f fs ih =>
    rw [runFrames_cons]
    exact ih _ (update_inv _ _ _ _ _ _ hw)

lemma generateWorld_inv (rng : ℤ → ℤ → TileRng) : treeHealthInv (generateWorld rng) := by
  intro i j d hd ht
  simp only [generateWorld, createTile] at hd
  split_ifs at hd <;>
    first
      | exact Option.noConfusion hd
      | (simp only [Option.some.injEq] at hd; subst hd;
         first
           | (left; rfl)
           | exact absurd ht (by intro hc; cases hc))

lemma damageTree_none_preserved (w : World) (dir : Vec2) (now x y : ℚ) (i j : ℤ)
    (h : (w.tileFn i j).decoration = none) :
    ((damageTree w dir now x y).1.tileFn i j).decoration = none := by
  rcases damageTree_world_spec w dir now x y with hE | ⟨d, hd, -, -, d2, hE, -⟩
  · rw [hE]; exact h
  · rw [hE]
    by_cases heq : i = ⌊x⌋ ∧ j = ⌊y⌋
    · obtain ⟨rfl, rfl⟩ := heq
      rw [hd] at h
      exact Option.noConfusion h
    · rw [setDecoration_tileFn_of_ne _ _ _ _ _ _ heq]
      exact h

lemma update_none_preserved (halfPi : ℚ) (interp : Player → ℚ → Player)
    (deltaTime now : ℚ) (input : InputState) (gs : GameState) (i j : ℤ)
    (h : (gs.world.tileFn i j).decoration = none) :
    ((update halfPi interp deltaTime now input gs).1.world.tileFn i j).decoration = none := by
  rcases update_cases halfPi interp deltaTime now input gs with
    ⟨-, -, hE⟩ | ⟨-, -, -, dir, tx, ty, hE⟩
  · rw [hE, updateFallingTrees_tileFn, tile_with_decoration, h]
    rfl
  · rw [hE, updateFallingTrees_tileFn, tile_with_decoration,
      damageTree_none_preserved _ _ _ _ _ _ _ h]
    rfl

/-- C4: once a tree is `falling`, each frame leaves `fallAngle` no smaller,
clamped at `halfPi` (= π/2), and the state only moves to `fading`, with
`fallAngle` pinned to exactly `halfPi` on the flip; once `fading`, opacity is
non-increasing and the entity is removed (decoration cleared to null) exactly
on the first frame its opacity reaches ≤ 0; and a removed decoration stays
removed under every further `update` — no transition out of the removed
state. -/
theorem c4_fall_fade_removal (halfPi dt : ℚ) (hdt : 0 ≤ dt) (hpi : 0 < halfPi)
    (d : Decoration) :
    (d.type = DecoType.tree → d.state = some TreeState.falling →
      d.fallAngle.getD 0 ≤ halfPi →
      ∃ d', treeFrame halfPi dt d = some d' ∧
        d.fallAngle.getD 0 ≤ d'.fallAngle.getD 0 ∧
        d'.fallAngle.getD 0 ≤ halfPi ∧
        (d'.state = some TreeState.fading → d'.fallAngle = some halfPi) ∧
        (d'.state = some TreeState.falling ∨ d'.state = some TreeState.fading) ∧
        d'.health = d.health ∧ d'.opacity = d.opacity) ∧
    (d.type = DecoType.tree → d.state = some TreeState.fading →
      (treeFrame halfPi dt d = none ↔ d.opacity.getD 1 - dt * 2 ≤ 0) ∧
      ∀ d', treeFrame halfPi dt d = some d' →
        d'.opacity.getD 1 ≤ d.opacity.getD 1 ∧
        d'.state = some TreeState.fading ∧ d'.health = d.health) ∧
    (∀ (interp : Player → ℚ → Player) (deltaTime now : ℚ) (input : InputState)
      (gs : GameState) (i j : ℤ), (gs.world.tileFn i j).decoration = none →
      ((update halfPi interp deltaTime now input gs).1.world.tileFn i j).decoration = none) := by
  refine ⟨?_, ?_, fun interp deltaTime now input gs i j h =>
    update_none_preserved halfPi interp deltaTime now input gs i j h⟩
  · intro ht hs hle
    rw [treeFrame_of_falling halfPi dt d ht hs]
    split_ifs with hc
    · refine ⟨_, rfl, ?_, ?_, fun _ => rfl, Or.inr rfl, rfl, rfl⟩
      · show d.fallAngle.getD 0 ≤ (some halfPi).getD 0
        simpa using hle
      · show (some halfPi).getD 0 ≤ halfPi
        simp
    · push_neg at hc
      refine ⟨_, rfl, ?_, ?_, ?_, Or.inl hs, rfl, rfl⟩
      · show d.fallAngle.getD 0 ≤ (some (d.fallAngle.getD 0 + dt * (5 / 2))).getD 0
        simp only [Option.getD_some]
        nlinarith
      · show (some (d.fallAngle.getD 0 + dt * (5 / 2))).getD 0 ≤ halfPi
        simp only [Option.getD_some]
        linarith
      · intro hq
        have hq2 : d.state = some TreeState.fading := hq
        rw [hs] at hq2
        cases hq2
  · intro ht hs
    rw [treeFrame_of_fading halfPi dt d ht hs]
    split_ifs with ho
    · refine ⟨by simp [ho], ?_⟩
      intro d' hd'
      exact hd'.elim
    · refine ⟨by simp [ho], ?_⟩
      intro d' hd'
      simp only [Option.some.injEq] at hd'
      subst hd'
      refine ⟨?_, hs, rfl⟩
      show (some (d.opacity.getD 1 - dt * 2)).getD 1 ≤ d.opacity.getD 1
      simp only [Option.getD_some]
      linarith

lemma sample_tile_base : (sampleW.tileFn 1 0).decoration = some sampleTreeDeco := by
  norm_num [sampleW]

lemma chop1_eq : damageTree sampleW chopDir 0 1 0 =
    (sampleW.setDecoration 1 0 (some deco66), false) := by
  have h := damageTree_of_chop sampleW chopDir 0 1 0 sampleTreeDeco
    (by rw [Int.floor_one, Int.floor_zero]; norm_num [sampleW])
    (by rw [Int.floor_one, Int.floor_zero]; exact sample_tile_base)
    rfl (by norm_num [sampleTreeDeco]) (by norm_num [sampleTreeDeco])
  rw [Int.floor_one, Int.floor_zero] at h
  rw [h]
  norm_num [deco66, sampleTreeDeco]

lemma chop1W_tile : chop1W.tileFn 1 0 = { sampleW.tileFn 1 0 with decoration := some deco66 } := by
  show (damageTree sampleW chopDir 0 1 0).1.tileFn 1 0 = _
  rw [chop1_eq]
  exact setDecoration_tileFn_self sampleW 1 0 (some deco66)

lemma chop2_eq : damageTree chop1W chopDir 0 1 0 =
    (chop1W.setDecoration 1 0 (some deco32), false) := by
  have h := damageTree_of_chop chop1W chopDir 0 1 0 deco66
    (by rw [Int.floor_one, Int.floor_zero]
        have h1 : chop1W.width = sampleW.width := by
          show (damageTree sampleW chopDir 0 1 0).1.width = _
          exact damageTree_width _ _ _ _ _
        have h2 : chop1W.height = sampleW.height := by
          show (damageTree sampleW chopDir 0 1 0).1.height = _
          exact damageTree_height _ _ _ _ _
        rw [h1, h2]
        norm_num [sampleW])
    (by rw [Int.floor_one, Int.floor_zero, chop1W_tile, tile_with_decoration])
    rfl (by norm_num [deco66]) (by norm_num [deco66])
  rw [Int.floor_one, Int.floor_zero] at h
  rw [h]
  norm_num [deco32, deco66, sampleTreeDeco]

lemma chop2W_tile : chop2W.tileFn 1 0 = { sampleW.tileFn 1 0 with decoration := some deco32 } := by
  show (damageTree chop1W chopDir 0 1 0).1.tileFn 1 0 = _
  rw [chop2_eq]
  rw [setDecoration_tileFn_self chop1W 1 0 (some deco32), chop1W_tile]

lemma chop3_eq : damageTree chop2W chopDir 0 1 0 =
    (chop2W.setDecoration 1 0 (some decoFallen), true) := by
  have h := damageTree_of_fell chop2W chopDir 0 1 0 deco32
    (by rw [Int.floor_one, Int.floor_zero]
        have h1 : chop2W.width = chop1W.width := by
          show (damageTree chop1W chopDir 0 1 0).1.width = _
          exact damageTree_width _ _ _ _ _
        have h2 : chop2W.height = chop1W.height := by
          show (damageTree chop1W chopDir 0 1 0).1.height = _
          exact damageTree_height _ _ _ _ _
        have h3 : chop1W.width = sampleW.width := by
          show (damageTree sampleW chopDir 0 1 0).1.width = _
          exact damageTree_width _ _ _ _ _
        have h4 : chop1W.height = sampleW.height := by
          show (damageTree sampleW chopDir 0 1 0).1.height = _
          exact damageTree_height _ _ _ _ _
        rw [h1, h2, h3, h4]
        norm_num [sampleW])
    (by rw [Int.floor_one, Int.floor_zero, chop2W_tile, tile_with_decoration])
    rfl (by norm_num [deco32]) (by norm_num [deco32])
  rw [Int.floor_one, Int.floor_zero] at h
  rw [h]
  norm_num [decoFallen, deco32, sampleTreeDeco]

lemma chop3W_tile : chop3W.tileFn 1 0 = { sampleW.tileFn 1 0 with decoration := some decoFallen } := by
  show (damageTree chop2W chopDir 0 1 0).1.tileFn 1 0 = _
  rw [chop3_eq]
  rw [setDecoration_tileFn_self chop2W 1 0 (some decoFallen), chop2W_tile]

lemma sample_chop_chain :
    (chop1W.tileFn 1 0).decoration.bind Decoration.health = some 66 ∧
    (chop1W.tileFn 1 0).decoration.bind Decoration.state = some TreeState.healthy ∧
    (chop2W.tileFn 1 0).decoration.bind Decoration.health = some 32 ∧
    (chop2W.tileFn 1 0).decoration.bind Decoration.state = some TreeState.healthy ∧
    (chop3W.tileFn 1 0).decoration.bind Decoration.health = some (-2) ∧
    (chop3W.tileFn 1 0).decoration.bind Decoration.state = some TreeState.falling ∧
    (chop3W.tileFn 1 0).decoration.bind Decoration.fallAngle = some 0 ∧
    (chop3W.tileFn 1 0).decoration.bind Decoration.fallDirection = some chopDir ∧
    isWalkable chop2W 1 0 = false ∧
    isWalkable chop3W 1 0 = true := by
  refine ⟨?_, ?_, ?_, ?_, ?_, ?_, ?_, ?_, ?_, ?_⟩
  · rw [chop1W_tile, tile_with_decoration, bind_some_eq]; rfl
  · rw [chop1W_tile, tile_with_decoration, bind_some_eq]; rfl
  · rw [chop2W_tile, tile_with_decoration, bind_some_eq]; rfl
  · rw [chop2W_tile, tile_with_decoration, bind_some_eq]; rfl
  · rw [chop3W_tile, tile_with_decoration, bind_some_eq]; rfl
  · rw [chop3W_tile, tile_with_decoration, bind_some_eq]; rfl
  · rw [chop3W_tile, tile_with_decoration, bind_some_eq]; rfl
  · rw [chop3W_tile, tile_with_decoration, bind_some_eq]; rfl
  · exact isWalkable_false_of_tree chop2W 1 0 deco32
      (by rw [Int.floor_one, Int.floor_zero, chop2W_tile, tile_with_decoration])
      rfl (by norm_num [deco32])
  · rw [isWalkable_eq_true_iff]
    have h1 : chop3W.width = 2 := by
      show (damageTree chop2W chopDir 0 1 0).1.width = 2
      rw [damageTree_width]
      show (damageTree chop1W chopDir 0 1 0).1.width = 2
      rw [damageTree_width]
      show (damageTree sampleW chopDir 0 1 0).1.width = 2
      rw [damageTree_width]
      rfl
    have h2 : chop3W.height = 1 := by
      show (damageTree chop2W chopDir 0 1 0).1.height = 1
      rw [damageTree_height]
      show (damageTree chop1W chopDir 0 1 0).1.height = 1
      rw [damageTree_height]
      show (damageTree sampleW chopDir 0 1 0).1.height = 1
      rw [damageTree_height]
      rfl
    rw [Int.floor_one, Int.floor_zero, h1, h2, chop3W_tile]
    refine ⟨by norm_num, ?_, ?_⟩
    · show (sampleW.tileFn 1 0).type ≠ Terrain.water
      norm_num [sampleW]
      decide
    · intro d hd
      rw [tile_with_decoration] at hd
      simp only [Option.some.injEq] at hd
      subst hd
      exact ⟨by decide, fun _ => by norm_num [decoFallen]⟩

/-- C2: a chop on a tree with health > 0 decrements health by exactly 34 and arms
a 150 ms shake window; while the new health stays positive nothing else changes;
on the chop whose decrement makes health ≤ 0 the tree transitions to `falling`
with `fallAngle := 0` and `fallDirection :=` the provided vector pointing away
from the chopper, and the tile is walkable immediately — `isWalkable` is
health-gated, no separate write happens.  The closed conjuncts trace a fresh
tree through three chops: 100 → 66 → 32 → -2, felling exactly on the third. -/
theorem c2_chop_semantics (w : World) (dir : Vec2) (now x y : ℚ) (d : Decoration)
    (hin : 0 ≤ ⌊x⌋ ∧ ⌊x⌋ < (w.width : ℤ) ∧ 0 ≤ ⌊y⌋ ∧ ⌊y⌋ < (w.height : ℤ))
    (hd : (w.tileFn ⌊x⌋ ⌊y⌋).decoration = some d)
    (ht : d.type = DecoType.tree)
    (hpos : 0 < d.health.getD 100) :
    (∃ d', ((damageTree w dir now x y).1.tileFn ⌊x⌋ ⌊y⌋).decoration = some d' ∧
      d'.health = some (d.health.getD 100 - 34) ∧
      d'.shakeEndTime = some (now + 150) ∧
      (0 < d.health.getD 100 - 34 →
        d'.state = d.state ∧ d'.fallAngle = d.fallAngle ∧
        d'.fallDirection = d.fallDirection ∧ (damageTree w dir now x y).2 = false) ∧
      (d.health.getD 100 - 34 ≤ 0 →
        d'.state = some TreeState.falling ∧ d'.fallAngle = some 0 ∧
        d'.fallDirection = some dir ∧ (damageTree w dir now x y).2 = true ∧
        ((w.tileFn ⌊x⌋ ⌊y⌋).type ≠ Terrain.water →
          isWalkable (damageTree w dir now x y).1 x y = true))) ∧
    ((chop1W.tileFn 1 0).decoration.bind Decoration.health = some 66 ∧
     (chop2W.tileFn 1 0).decoration.bind Decoration.health = some 32 ∧
     (chop3W.tileFn 1 0).decoration.bind Decoration.health = some (-2) ∧
     (chop3W.tileFn 1 0).decoration.bind Decoration.state = some TreeState.falling ∧
     isWalkable chop3W 1 0 = true) := by
  have hchain := sample_chop_chain
  refine ⟨?_, hchain.1, hchain.2.2.1, hchain.2.2.2.2.1, hchain.2.2.2.2.2.1, hchain.2.2.2.2.2.2.2.2.2⟩
  have hbnd : ¬(⌊x⌋ < 0 ∨ (w.width : ℤ) ≤ ⌊x⌋ ∨ ⌊y⌋ < 0 ∨ (w.height : ℤ) ≤ ⌊y⌋) := by
    rintro (hb | hb | hb | hb) <;> omega
  by_cases hlive : 0 < d.health.getD 100 - 34
  · rw [damageTree_of_chop w dir now x y d hbnd hd ht hpos hlive]
    rw [setDecoration_tileFn_self, tile_with_decoration]
    refine ⟨_, rfl, rfl, rfl, fun _ => ⟨rfl, rfl, rfl, rfl⟩, fun hf => absurd hf (by omega)⟩
  · push_neg at hlive
    rw [damageTree_of_fell w dir now x y d hbnd hd ht hpos hlive]
    rw [setDecoration_tileFn_self, tile_with_decoration]
    refine ⟨_, rfl, rfl, rfl, fun hf => absurd hf (by omega), fun _ => ⟨rfl, rfl, rfl, rfl, ?_⟩⟩
    intro hterr
    rw [isWalkable_eq_true_iff]
    refine ⟨hin, ?_, ?_⟩
    · rw [setDecoration_tileFn_self]
      exact hterr
    · intro d'' hd''
      rw [setDecoration_tileFn_self, tile_with_decoration] at hd''
      simp only [Option.some.injEq] at hd''
      subst hd''
      constructor
      · show d.type ≠ DecoType.rock
        rw [ht]
        decide
      · intro _
        show (some (d.health.getD 100 - 34)).getD 100 ≤ 0
        simp only [Option.getD_some]
        exact hlive

/-- C8: invoking the chop operation on a tree whose health is already ≤ 0 (the
guard covering the `falling` and `fading` states) is a silent no-op: the call
is total (no exception channel exists in the embedding) and returns the world
unchanged — tree health, state, fallAngle, fallDirection, opacity and the
owning tile are all exactly as before — with `false`. -/
theorem c8_depleted_chop_noop (w : World) (dir : Vec2) (now x y : ℚ) (d : Decoration)
    (hd : (w.tileFn ⌊x⌋ ⌊y⌋).decoration = some d)
    (ht : d.type = DecoType.tree)
    (hdep : d.health.getD 100 ≤ 0) :
    damageTree w dir now x y = (w, false) :=
  damageTree_of_guardFail w dir now x y d hd (by rintro ⟨-, hp⟩; omega)

lemma two_chops_sample :
    (stepFrame (157 / 100) interpId chopF sampleGs).2 = true ∧
    (stepFrame (157 / 100) interpId chopF (stepFrame (157 / 100) interpId chopF sampleGs).1).2 = true := by
  have hint : ¬(intentDx chopF.input = 0 ∧ intentDy chopF.input = 0) := by decide
  obtain ⟨hA1, hc1, hp1, hm1, hw1, hh1, hF1, -⟩ :=
    stepFrame_chop (157 / 100) interpId chopF sampleGs sampleTreeDeco 100
      rfl hint (by norm_num [sampleGs])
      (by norm_num [sampleGs, sampleW, intentDx, intentDy, inpRight, chopF])
      (by norm_num [sampleGs, sampleW, intentDx, intentDy, inpRight, chopF, sampleTreeDeco])
      rfl rfl rfl (by norm_num)
  set s1 : GameState := (stepFrame (157 / 100) interpId chopF sampleGs).1 with hs1
  have hd1 : (s1.world.tileFn 1 0).decoration =
      some { sampleTreeDeco with health := some 66, shakeEndTime := some 150 } := by
    have := hF1 (by norm_num)
    norm_num [sampleGs, intentDx, intentDy, inpRight, chopF] at this
    convert this using 4 <;> norm_num [chopF]
  have hix1 : round s1.player.x + intentDx chopF.input = 1 := by
    rw [hp1]; norm_num [sampleGs, intentDx, inpRight, chopF]
  have hiy1 : round s1.player.y + intentDy chopF.input = 0 := by
    rw [hp1]; norm_num [sampleGs, intentDy, inpRight, chopF]
  obtain ⟨hA2, -, -, -, -, -, -, -⟩ :=
    stepFrame_chop (157 / 100) interpId chopF s1
      { sampleTreeDeco with health := some 66, shakeEndTime := some 150 } 66
      hm1 hint (by rw [hc1]; norm_num [chopF])
      (by rw [hix1, hiy1, hw1, hh1]; norm_num [sampleGs, sampleW])
      (by rw [hix1, hiy1]; exact hd1)
      rfl rfl rfl (by norm_num)
  exact ⟨hA1, hA2⟩

/-- C10: holding a directional key toward a non-walkable tree tile re-attempts
the chop with no per-input-edge guard: on any frame where the player is idle
and the just-decremented global cooldown is ≤ 0, the chop fires again — the
hypotheses mention no input history — decrementing health by 34 and re-arming
the cooldown.  The closed conjunct: merely keeping the key held for three
300 ms frames (about three cooldown periods) drives a fresh tree from 100 to
-2. -/
theorem c10_held_key_rechops (halfPi : ℚ) (interp : Player → ℚ → Player) (f : Frame)
    (gs : GameState) (d : Decoration) (h : ℤ)
    (hmov : gs.isMoving = false)
    (hint : ¬(intentDx f.input = 0 ∧ intentDy f.input = 0))
    (hcd : (if 0 < gs.chopCooldown then gs.chopCooldown - f.delta else gs.chopCooldown) ≤ 0)
    (hin : 0 ≤ round gs.player.x + intentDx f.input ∧
      round gs.player.x + intentDx f.input < (gs.world.width : ℤ) ∧
      0 ≤ round gs.player.y + intentDy f.input ∧
      round gs.player.y + intentDy f.input < (gs.world.height : ℤ))
    (hd : (gs.world.tileFn (round gs.player.x + intentDx f.input)
      (round gs.player.y + intentDy f.input)).decoration = some d)
    (ht : d.type = DecoType.tree)
    (hs : d.state = some TreeState.healthy)
    (hh : d.health = some h)
    (hpos : 0 < h) :
    ((stepFrame halfPi interp f gs).2 = true ∧
     (stepFrame halfPi interp f gs).1.chopCooldown = 300 ∧
     ∃ d', ((stepFrame halfPi interp f gs).1.world.tileFn (round gs.player.x + intentDx f.input)
        (round gs.player.y + intentDy f.input)).decoration = some d' ∧
       d'.health = some (h - 34)) ∧
    (∃ d', ((runFrames (157 / 100) interpId [chopF, chopF, chopF] sampleGs).world.tileFn 1 0).decoration = some d' ∧
      d'.health = some (-2)) := by
  obtain ⟨hA, hB, -, -, -, -, hF, hG⟩ :=
    stepFrame_chop halfPi interp f gs d h hmov hint hcd hin hd ht hs hh hpos
  refine ⟨⟨hA, hB, ?_⟩, depletion_sample⟩
  by_cases hlive : 0 < h - 34
  · exact ⟨_, hF hlive, rfl⟩
  · push_neg at hlive
    obtain ⟨d', hdeco, hhp, -⟩ := hG hlive
    exact ⟨d', hdeco, hhp⟩

/-- C9: walkability is monotone over a session.  Once `isWalkable` returns true at
a coordinate, it still returns true after any further sequence of update frames:
terrain is never mutated, a chop only decrements the health of a tree that was
not walkable, the per-frame tree step preserves type and health, and removal
only clears a decoration to null. -/
theorem c9_walkability_monotone (halfPi : ℚ) (interp : Player → ℚ → Player)
    (frames : List Frame) (gs : GameState) (x y : ℚ)
    (h : isWalkable gs.world x y = true) :
    isWalkable (runFrames halfPi interp frames gs).world x y = true := by
  induction frames generalizing gs with
  | nil => exact h
  | cons f fs ih =>
    rw [runFrames_cons]
    exact ih _ (update_walkable_mono halfPi interp f.delta f.now f.input gs x y h)

/-- C7 (amended): every tree is created with health 100, and under every sequence
of update frames (chops included) its health stays in {100, 66, 32, -2} — an
integer in [-2, 100], not in [0, 100] as claimed: the felling chop drives it to
-2. -/
theorem c7_health_values_amended :
    (∀ rng, treeHealthInv (generateWorld rng)) ∧
    (∀ (halfPi : ℚ) (interp : Player → ℚ → Player) (frames : List Frame) (gs : GameState),
      treeHealthInv gs.world → treeHealthInv (runFrames halfPi interp frames gs).world) :=
  ⟨generateWorld_inv, fun halfPi interp frames gs h => runFrames_inv halfPi interp frames gs h⟩

/-- C7 counterexample: from a freshly generated world holding one tree (health
100) with the player idle next to it, holding the right key for three 300 ms
frames leaves that tree's health at -2, outside the claimed interval
[0, 100]. -/
theorem c7_counterexample :
    ∃ d', ((runFrames (157 / 100) interpId [chopF, chopF, chopF] gsC7).world.tileFn 1 1).decoration = some d' ∧
      d'.health = some (-2) ∧
      ∀ hv : ℤ, d'.health = some hv → ¬(0 ≤ hv ∧ hv ≤ 100) := by
  obtain ⟨d', hdeco, hh⟩ := depletion_generated
  refine ⟨d', hdeco, hh, ?_⟩
  intro hv hv'
  rw [hh] at hv'
  simp only [Option.some.injEq] at hv'
  omega

/-- C6 (amended): for every accepted directional movement intent, the target tile
passed to the walkability check is the player's rounded tile translated by
(dx, dy) with each component in [-1, 1]; when the input activates only one axis
(the other axis's keys are up, or cancel) only that axis changes.  The original
claim — that no diagonal step ever occurs — is false: both axes change when two
perpendicular keys are held, see the counterexample. -/
theorem c6_single_axis_amended (interp : Player → ℚ → Player) (deltaTime now : ℚ)
    (input : InputState) (gs : GameState)
    (hmov : gs.isMoving = false)
    (hint : ¬(intentDx input = 0 ∧ intentDy input = 0))
    (hwalk : isWalkable gs.world ((round gs.player.x + intentDx input : ℤ) : ℚ)
      ((round gs.player.y + intentDy input : ℤ) : ℚ) = true) :
    (updatePlayer interp deltaTime now input gs).1.player.targetX =
      ((round gs.player.x + intentDx input : ℤ) : ℚ) ∧
    (updatePlayer interp deltaTime now input gs).1.player.targetY =
      ((round gs.player.y + intentDy input : ℤ) : ℚ) ∧
    (updatePlayer interp deltaTime now input gs).1.isMoving = true ∧
    (-1 ≤ intentDx input ∧ intentDx input ≤ 1) ∧
    (-1 ≤ intentDy input ∧ intentDy input ≤ 1) ∧
    (input.up = false → input.down = false → intentDy input = 0) ∧
    (input.left = false → input.right = false → intentDx input = 0) := by
  rw [updatePlayer_of_walk interp deltaTime now input gs hmov hint hwalk]
  refine ⟨rfl, rfl, rfl, ?_, ?_, ?_, ?_⟩
  · unfold intentDx
    split_ifs <;> omega
  · unfold intentDy
    split_ifs <;> omega
  · intro h1 h2
    simp [intentDy, h1, h2]
  · intro h1 h2
    simp [intentDx, h1, h2]

/-- C6 counterexample: with up and left both held, the idle player at (5, 5) on an
all-grass world accepts a movement whose target differs from the current tile
in both axes — a diagonal step, contradicting the claim that exactly one axis
resolves per intent. -/
theorem c6_diagonal_counterexample :
    (update (157 / 100) interpId 50 0 inpUpLeft gsDiag).1.isMoving = true ∧
    (update (157 / 100) interpId 50 0 inpUpLeft gsDiag).1.player.targetX ≠ gsDiag.player.x ∧
    (update (157 / 100) interpId 50 0 inpUpLeft gsDiag).1.player.targetY ≠ gsDiag.player.y := by
  have hrx : round gsDiag.player.x = 5 := by
    show round ((5 : ℤ) : ℚ) = 5
    rw [round_intCast]
  have hry : round gsDiag.player.y = 5 := by
    show round ((5 : ℤ) : ℚ) = 5
    rw [round_intCast]
  set gs0 : GameState := { gsDiag with chopCooldown :=
    if 0 < gsDiag.chopCooldown then gsDiag.chopCooldown - 50 else gsDiag.chopCooldown } with hgs0
  have hrx0 : round gs0.player.x + intentDx inpUpLeft = 4 := by
    show round gsDiag.player.x + intentDx inpUpLeft = 4
    rw [hrx]
    decide
  have hry0 : round gs0.player.y + intentDy inpUpLeft = 4 := by
    show round gsDiag.player.y + intentDy inpUpLeft = 4
    rw [hry]
    decide
  have hwalk : isWalkable gs0.world ((round gs0.player.x + intentDx inpUpLeft : ℤ) : ℚ)
      ((round gs0.player.y + intentDy inpUpLeft : ℤ) : ℚ) = true := by
    rw [hrx0, hry0, isWalkable_eq_true_iff, Int.floor_intCast]
    refine ⟨?_, ?_, ?_⟩
    · show 0 ≤ (4 : ℤ) ∧ (4 : ℤ) < ((20 : ℕ) : ℤ) ∧ 0 ≤ (4 : ℤ) ∧ (4 : ℤ) < ((20 : ℕ) : ℤ)
      norm_num
    · show Terrain.grass ≠ Terrain.water
      decide
    · intro d hd
      exact Option.noConfusion hd
  have hup := updatePlayer_of_walk interpId 50 0 inpUpLeft gs0 rfl (by decide) hwalk
  have hstep : update (157 / 100) interpId 50 0 inpUpLeft gsDiag =
      ({ (updatePlayer interpId 50 0 inpUpLeft gs0).1 with
          world := updateFallingTrees (157 / 100) 50
            (updatePlayer interpId 50 0 inpUpLeft gs0).1.world },
        (updatePlayer interpId 50 0 inpUpLeft gs0).2) := rfl
  rw [hstep, hup]
  refine ⟨rfl, ?_, ?_⟩
  · show ((round gs0.player.x + intentDx inpUpLeft : ℤ) : ℚ) ≠ gsDiag.player.x
    rw [hrx0]
    show ((4 : ℤ) : ℚ) ≠ ((5 : ℤ) : ℚ)
    norm_num
  · show ((round gs0.player.y + intentDy inpUpLeft : ℤ) : ℚ) ≠ gsDiag.player.y
    rw [hry0]
    show ((4 : ℤ) : ℚ) ≠ ((5 : ℤ) : ℚ)
    norm_num

lemma spawnCandidate_true_iff (t : Tile) :
    spawnCandidate t = true ↔ t.type ≠ Terrain.water ∧
      ∀ d, t.decoration = some d → d.type ≠ DecoType.tree ∧ d.type ≠ DecoType.rock := by
  unfold spawnCandidate
  cases hdec : t.decoration with
  | none =>
    simp only [Bool.and_eq_true, decide_eq_true_eq]
    constructor
    · rintro ⟨h1, -⟩
      exact ⟨h1, by rintro d hd; exact Option.noConfusion hd⟩
    · rintro ⟨h1, -⟩
      exact ⟨h1, trivial⟩
  | some d =>
    simp only [Bool.and_eq_true, decide_eq_true_eq]
    constructor
    · rintro ⟨h1, h2, h3⟩
      refine ⟨h1, ?_⟩
      rintro d' hd'
      simp only [Option.some.injEq] at hd'
      subst hd'
      exact ⟨h2, h3⟩
    · rintro ⟨h1, h2⟩
      obtain ⟨h2a, h2b⟩ := h2 d rfl
      exact ⟨h1, h2a, h2b⟩

lemma createTile_0_0 (r : TileRng) : createTile 0 0 r = ⟨0, 0, Terrain.grass, none⟩ := by
  unfold createTile
  norm_num

lemma zero_mem_validPositions (rng : ℤ → ℤ → TileRng) :
    ((0 : ℤ), (0 : ℤ)) ∈ validPositions (generateWorld rng) := by
  have hcand : spawnCandidate ((generateWorld rng).tileFn 0 0) = true := by
    show spawnCandidate (createTile 0 0 (rng 0 0)) = true
    rw [createTile_0_0]
    rfl
  unfold validPositions
  apply List.mem_flatMap.mpr
  refine ⟨0, ?_, ?_⟩
  · show (0 : ℕ) ∈ List.range (generateWorld rng).width
    exact List.mem_range.mpr (by norm_num [generateWorld, WORLD_SIZE])
  · apply List.mem_filterMap.mpr
    refine ⟨0, ?_, ?_⟩
    · show (0 : ℕ) ∈ List.range (generateWorld rng).height
      exact List.mem_range.mpr (by norm_num [generateWorld, WORLD_SIZE])
    · show (if spawnCandidate ((generateWorld rng).tileFn ((0 : ℕ) : ℤ) ((0 : ℕ) : ℤ)) then
        some (((0 : ℕ) : ℤ), ((0 : ℕ) : ℤ)) else none) = some ((0 : ℤ), (0 : ℤ))
      simp only [Nat.cast_zero]
      rw [hcand]
      rfl

lemma validPositions_mem_spec (w : World) (p : ℤ × ℤ) (hp : p ∈ validPositions w) :
    0 ≤ p.1 ∧ p.1 < (w.width : ℤ) ∧ 0 ≤ p.2 ∧ p.2 < (w.height : ℤ) ∧
      spawnCandidate (w.tileFn p.1 p.2) = true := by
  unfold validPositions at hp
  obtain ⟨x, hx, hy⟩ := List.mem_flatMap.mp hp
  obtain ⟨y, hyr, hpf⟩ := List.mem_filterMap.mp hy
  split_ifs at hpf with hc
  · simp only [Option.some.injEq] at hpf
    subst hpf
    have hx' := List.mem_range.mp hx
    have hy' := List.mem_range.mp hyr
    refine ⟨?_, ?_, ?_, ?_, hc⟩
    · show (0 : ℤ) ≤ ((x : ℕ) : ℤ)
      positivity
    · show ((x : ℕ) : ℤ) < (w.width : ℤ)
      exact_mod_cast hx'
    · show (0 : ℤ) ≤ ((y : ℕ) : ℤ)
      positivity
    · show ((y : ℕ) : ℤ) < (w.height : ℤ)
      exact_mod_cast hy'

/-- C5: for every freshly generated world the spawn candidate set is non-empty
(tile (0,0) always qualifies, so the grid-centre fallback branch is never
taken), and for every in-range random index the chosen spawn tile is drawn from
the candidate list, is walkable, and carries neither a rock nor a tree of any
health. -/
theorem c5_spawn_validity (rng : ℤ → ℤ → TileRng) (randomIndex : ℕ) :
    validPositions (generateWorld rng) ≠ [] ∧
    (randomIndex < (validPositions (generateWorld rng)).length →
      getSpawnPosition (generateWorld rng) randomIndex ∈ validPositions (generateWorld rng) ∧
      isWalkable (generateWorld rng)
        (((getSpawnPosition (generateWorld rng) randomIndex).1 : ℤ) : ℚ)
        (((getSpawnPosition (generateWorld rng) randomIndex).2 : ℤ) : ℚ) = true ∧
      ∀ d, ((generateWorld rng).tileFn (getSpawnPosition (generateWorld rng) randomIndex).1
          (getSpawnPosition (generateWorld rng) randomIndex).2).decoration = some d →
        d.type ≠ DecoType.rock ∧ d.type ≠ DecoType.tree) := by
  have hne : validPositions (generateWorld rng) ≠ [] :=
    List.ne_nil_of_mem (zero_mem_validPositions rng)
  refine ⟨hne, ?_⟩
  intro hidx
  have hlen : 0 < (validPositions (generateWorld rng)).length := lt_of_le_of_lt (Nat.zero_le _) hidx
  have hmem : getSpawnPosition (generateWorld rng) randomIndex ∈ validPositions (generateWorld rng) := by
    unfold getSpawnPosition
    rw [if_pos hlen]
    rw [List.getD_eq_getElem _ _ hidx]
    exact List.getElem_mem hidx
  obtain ⟨hb1, hb2, hb3, hb4, hcand⟩ := validPositions_mem_spec _ _ hmem
  rw [spawnCandidate_true_iff] at hcand
  refine ⟨hmem, ?_, ?_⟩
  · rw [isWalkable_eq_true_iff, Int.floor_intCast, Int.floor_intCast]
    refine ⟨⟨hb1, hb2, hb3, hb4⟩, hcand.1, ?_⟩
    intro d hd
    obtain ⟨hnt, hnr⟩ := hcand.2 d hd
    exact ⟨hnr, fun htr => absurd htr hnt⟩
  · intro d hd
    obtain ⟨hnt, hnr⟩ := hcand.2 d hd
    exact ⟨hnr, hnt⟩

lemma sample_tile00 : sampleGs.world.tileFn 0 0 = ⟨0, 0, Terrain.grass, none⟩ := by
  norm_num [sampleGs, sampleW]

/-- Witness for C2 at the sample world: a fresh tree at (1,0) chopped from (0,0). -/
theorem c2_witness :
    (∃ d', ((damageTree sampleW chopDir 0 1 0).1.tileFn ⌊(1 : ℚ)⌋ ⌊(0 : ℚ)⌋).decoration = some d' ∧
      d'.health = some (sampleTreeDeco.health.getD 100 - 34) ∧
      d'.shakeEndTime = some (0 + 150) ∧
      (0 < sampleTreeDeco.health.getD 100 - 34 →
        d'.state = sampleTreeDeco.state ∧ d'.fallAngle = sampleTreeDeco.fallAngle ∧
        d'.fallDirection = sampleTreeDeco.fallDirection ∧ (damageTree sampleW chopDir 0 1 0).2 = false) ∧
      (sampleTreeDeco.health.getD 100 - 34 ≤ 0 →
        d'.state = some TreeState.falling ∧ d'.fallAngle = some 0 ∧
        d'.fallDirection = some chopDir ∧ (damageTree sampleW chopDir 0 1 0).2 = true ∧
        ((sampleW.tileFn ⌊(1 : ℚ)⌋ ⌊(0 : ℚ)⌋).type ≠ Terrain.water →
          isWalkable (damageTree sampleW chopDir 0 1 0).1 1 0 = true))) ∧
    ((chop1W.tileFn 1 0).decoration.bind Decoration.health = some 66 ∧
     (chop2W.tileFn 1 0).decoration.bind Decoration.health = some 32 ∧
     (chop3W.tileFn 1 0).decoration.bind Decoration.health = some (-2) ∧
     (chop3W.tileFn 1 0).decoration.bind Decoration.state = some TreeState.falling ∧
     isWalkable chop3W 1 0 = true) :=
  c2_chop_semantics sampleW chopDir 0 1 0 sampleTreeDeco
    (by rw [Int.floor_one, Int.floor_zero]; norm_num [sampleW])
    (by rw [Int.floor_one, Int.floor_zero]; exact sample_tile_base)
    rfl (by norm_num [sampleTreeDeco])

/-- Witness for C3: two back-to-back chops in the sample world, 300 ms apart. -/
theorem c3_witness :
    300 ≤ sumDelta ([] : List Frame) + chopF.delta ∧
    ∀ gs' f, (stepFrame (157 / 100) interpId f gs').2 = true →
      (if 0 < gs'.chopCooldown then gs'.chopCooldown - f.delta else gs'.chopCooldown) ≤ 0 ∧
      (stepFrame (157 / 100) interpId f gs').1.chopCooldown = 300 :=
  c3_cooldown_exclusivity (157 / 100) interpId sampleGs [] [] chopF chopF
    (by intro f hf; cases hf)
    (by norm_num [chopF])
    two_chops_sample.1
    two_chops_sample.2

/-- Witness for C4 at a falling tree with dt = 0.1 s and halfPi = 1.57. -/
theorem c4_witness :
    (fallenDeco.type = DecoType.tree → fallenDeco.state = some TreeState.falling →
      fallenDeco.fallAngle.getD 0 ≤ 157 / 100 →
      ∃ d', treeFrame (157 / 100) (1 / 10) fallenDeco = some d' ∧
        fallenDeco.fallAngle.getD 0 ≤ d'.fallAngle.getD 0 ∧
        d'.fallAngle.getD 0 ≤ 157 / 100 ∧
        (d'.state = some TreeState.fading → d'.fallAngle = some (157 / 100)) ∧
        (d'.state = some TreeState.falling ∨ d'.state = some TreeState.fading) ∧
        d'.health = fallenDeco.health ∧ d'.opacity = fallenDeco.opacity) ∧
    (fallenDeco.type = DecoType.tree → fallenDeco.state = some TreeState.fading →
      (treeFrame (157 / 100) (1 / 10) fallenDeco = none ↔ fallenDeco.opacity.getD 1 - (1 / 10) * 2 ≤ 0) ∧
      ∀ d', treeFrame (157 / 100) (1 / 10) fallenDeco = some d' →
        d'.opacity.getD 1 ≤ fallenDeco.opacity.getD 1 ∧
        d'.state = some TreeState.fading ∧ d'.health = fallenDeco.health) ∧
    (∀ (interp : Player → ℚ → Player) (deltaTime now : ℚ) (input : InputState)
      (gs : GameState) (i j : ℤ), (gs.world.tileFn i j).decoration = none →
      ((update (157 / 100) interp deltaTime now input gs).1.world.tileFn i j).decoration = none) :=
  c4_fall_fade_removal (157 / 100) (1 / 10) (by norm_num) (by norm_num) fallenDeco

lemma gsDiag_walk_right : isWalkable gsDiag.world
    ((round gsDiag.player.x + intentDx inpRight : ℤ) : ℚ)
    ((round gsDiag.player.y + intentDy inpRight : ℤ) : ℚ) = true := by
  have hrx : round gsDiag.player.x + intentDx inpRight = 6 := by
    show round ((5 : ℤ) : ℚ) + intentDx inpRight = 6
    rw [round_intCast]
    decide
  have hry : round gsDiag.player.y + intentDy inpRight = 5 := by
    show round ((5 : ℤ) : ℚ) + intentDy inpRight = 5
    rw [round_intCast]
    decide
  rw [hrx, hry, isWalkable_eq_true_iff, Int.floor_intCast]
  refine ⟨?_, ?_, ?_⟩
  · show 0 ≤ (6 : ℤ) ∧ (6 : ℤ) < ((20 : ℕ) : ℤ) ∧ 0 ≤ (5 : ℤ) ∧ (5 : ℤ) < ((20 : ℕ) : ℤ)
    norm_num
  · show Terrain.grass ≠ Terrain.water
    decide
  · intro d hd
    exact Option.noConfusion hd

/-- Witness for C6 (amended) at the all-grass world: a single-axis right intent. -/
theorem c6_witness :
    (updatePlayer interpId 50 0 inpRight gsDiag).1.player.targetX =
      ((round gsDiag.player.x + intentDx inpRight : ℤ) : ℚ) ∧
    (updatePlayer interpId 50 0 inpRight gsDiag).1.player.targetY =
      ((round gsDiag.player.y + intentDy inpRight : ℤ) : ℚ) ∧
    (updatePlayer interpId 50 0 inpRight gsDiag).1.isMoving = true ∧
    (-1 ≤ intentDx inpRight ∧ intentDx inpRight ≤ 1) ∧
    (-1 ≤ intentDy inpRight ∧ intentDy inpRight ≤ 1) ∧
    (inpRight.up = false → inpRight.down = false → intentDy inpRight = 0) ∧
    (inpRight.left = false → inpRight.right = false → intentDx inpRight = 0) :=
  c6_single_axis_amended interpId 50 0 inpRight gsDiag rfl (by decide) gsDiag_walk_right

/-- Witness for C8: chopping the already-fallen tree changes nothing. -/
theorem c8_witness : damageTree fallenW chopDir 0 1 0 = (fallenW, false) :=
  c8_depleted_chop_noop fallenW chopDir 0 1 0 fallenDeco
    (by rw [Int.floor_one, Int.floor_zero]; norm_num [fallenW])
    rfl
    (by norm_num [fallenDeco])

/-- Witness for C9: a walkable tile stays walkable across a 50 ms frame. -/
theorem c9_witness :
    isWalkable (runFrames (157 / 100) interpId [⟨0, 50, inpNone⟩] sampleGs).world 0 0 = true :=
  c9_walkability_monotone (157 / 100) interpId [⟨0, 50, inpNone⟩] sampleGs 0 0
    (by
      rw [isWalkable_eq_true_iff, Int.floor_zero]
      refine ⟨by norm_num [sampleGs, sampleW], ?_, ?_⟩
      · rw [sample_tile00]
        decide
      · intro d hd
        rw [sample_tile00] at hd
        exact Option.noConfusion hd)

/-- Witness for C10 at the sample world with one 300 ms held-key frame. -/
theorem c10_witness :
    ((stepFrame (157 / 100) interpId chopF sampleGs).2 = true ∧
     (stepFrame (157 / 100) interpId chopF sampleGs).1.chopCooldown = 300 ∧
     ∃ d', ((stepFrame (157 / 100) interpId chopF sampleGs).1.world.tileFn
        (round sampleGs.player.x + intentDx chopF.input)
        (round sampleGs.player.y + intentDy chopF.input)).decoration = some d' ∧
       d'.health = some (100 - 34)) ∧
    (∃ d', ((runFrames (157 / 100) interpId [chopF, chopF, chopF] sampleGs).world.tileFn 1 0).decoration = some d' ∧
      d'.health = some (-2)) :=
  c10_held_key_rechops (157 / 100) interpId chopF sampleGs sampleTreeDeco 100
    rfl (by decide) (by norm_num [sampleGs])
    (by norm_num [sampleGs, sampleW, intentDx, intentDy, inpRight, chopF])
    (by norm_num [sampleGs, sampleW, intentDx, intentDy, inpRight, chopF, sampleTreeDeco])
    rfl rfl rfl (by norm_num)

end ForestExplorer
